import Mathlib

/-!
Verification of the rules engine of "All That Glitters" (an Alchemy-style
tile-placement puzzle).  The definitions below are a shallow embedding of the
final `GameState` rules-engine variant of the source (`src/src/audio.js`,
second `GameState` class, together with the scoring helpers of
`src/src/constants.js`).  JavaScript in-place mutation is rendered as
functional state passing; the random rune draws of `createRune` are rendered
as an explicit `fresh : Rune` oracle argument on every operation that draws.
-/

namespace Glitters

/-- Cell states (`CellState` in the source: EMPTY / LEAD / GOLD; the final
engine only ever produces LEAD and GOLD). -/
inductive CellState where
  | empty
  | lead
  | gold
deriving DecidableEq

/-- A rune.  In the source a rune is a JS object with optional fields
`color`, `symbol` and the boolean flags `isWild` / `isSkull` (absent fields
read as `undefined`, i.e. falsy); we model the optional string fields by
`Option String` and the flags by `Bool` (defaulting to `false`). -/
structure Rune where
  color : Option String := none
  symbol : Option String := none
  isWild : Bool := false
  isSkull : Bool := false
deriving DecidableEq

/-- `STARTING_RUNE`: the wild space seeding the board each round. -/
def STARTING_RUNE : Rune := { color := some "grey", symbol := some "wild", isWild := true }

def STARTING_RUNE_X : Nat := 4
def STARTING_RUNE_Y : Nat := 3

/-- The wild rune granted by the rare full-wipe compensation
(`{ color: 'grey', symbol: 'wild', isWild: true }` in the source). -/
def grantedWild : Rune := { color := some "grey", symbol := some "wild", isWild := true }

/-- A grid cell: a `state` and an optional rune (`{ state, rune }`). -/
structure Cell where
  state : CellState
  rune : Option Rune
deriving DecidableEq

/-- A fresh LEAD cell with no rune, as `init` creates them. -/
def leadEmpty : Cell := { state := .lead, rune := none }

/-- A cell as a row/column clear leaves it: GOLD background, no rune. -/
def goldEmpty : Cell := { state := .gold, rune := none }

abbrev Grid := List (List Cell)

/-- `getPlacementPoints(board)` from `constants.js`:
`10 + Math.floor((board - 1) / 3) * 2` (board is 1-indexed). -/
def getPlacementPoints (board : Nat) : Nat := 10 + ((board - 1) / 3) * 2

/-- `getRowClearPoints(board)` from `constants.js`:
`25 + Math.floor((board - 1) / 3) * 5`. -/
def getRowClearPoints (board : Nat) : Nat := 25 + ((board - 1) / 3) * 5

/-- `getBoardClearPoints(board)` from `constants.js`: `50 + (board - 1) * 10`. -/
def getBoardClearPoints (board : Nat) : Nat := 50 + (board - 1) * 10

/-- The whole engine state (the fields of the `GameState` class that take
part in the rules; `cellSize` and `gameStartTime` are rendering/wall-clock
data with no rules content and are omitted). -/
structure GameState where
  gridWidth : Nat
  gridHeight : Nat
  forgeCapacity : Nat
  skillLevel : Nat
  startBoard : Nat
  grid : Grid
  currentRune : Option Rune
  forge : List Rune
  score : Nat
  board : Nat
  selectedCell : Option (Int × Int)
  placementStreak : Nat
  maxPlacementStreak : Nat
  boardsCleared : Nat
deriving DecidableEq

/-- The constructor's configuration object; an absent option is `none`
(JS `undefined`, resolved by `??`). -/
structure Config where
  gridWidth : Option Nat := none
  gridHeight : Option Nat := none
  forgeCapacity : Option Nat := none
  skillLevel : Option Nat := none
  startBoard : Option Nat := none

/-- Direct cell lookup `grid[y][x]` (row-major), `none` when the index does
not exist (JS `undefined`). -/
def cellAt (g : Grid) (x y : Nat) : Option Cell :=
  (g[y]?).bind (fun row => row[x]?)

/-- Replace the element at an index, leaving the list unchanged when the
index is out of range. -/
def modifyIdx (f : α → α) : Nat → List α → List α
  | _, [] => []
  | 0, a :: as => f a :: as
  | n + 1, a :: as => a :: modifyIdx f n as

/-- Overwrite the whole cell at `(x, y)` (no-op when it does not exist). -/
def setCellAt (g : Grid) (x y : Nat) (c : Cell) : Grid :=
  modifyIdx (fun row => modifyIdx (fun _ => c) x row) y g

/-- Mutate only the `rune` field of the cell at `(x, y)`
(the source's `cell.rune = ...`, which leaves `cell.state` alone). -/
def setRuneAt (g : Grid) (x y : Nat) (r : Option Rune) : Grid :=
  modifyIdx (fun row => modifyIdx (fun c => { c with rune := r }) x row) y g

/-- Bounds-checked cell access, `getCell(x, y)` of the source: `null` when
`x < 0 || x >= gridWidth || y < 0 || y >= gridHeight`, else `grid[y][x]`. -/
def getCellG (w h : Nat) (g : Grid) (x y : Int) : Option Cell :=
  if x < 0 ∨ (w : Int) ≤ x ∨ y < 0 ∨ (h : Int) ≤ y then none
  else cellAt g x.toNat y.toNat

def GameState.getCell (s : GameState) (x y : Int) : Option Cell :=
  getCellG s.gridWidth s.gridHeight s.grid x y

/-- `getAdjacentCells(x, y)`: the up-to-4 orthogonal neighbours that exist
(`map(getCell).filter(Boolean)`). -/
def GameState.getAdjacentCells (s : GameState) (x y : Int) : List Cell :=
  ([(-1, 0), (1, 0), (0, -1), (0, 1)] : List (Int × Int)).filterMap
    (fun d => s.getCell (x + d.1) (y + d.2))

/-- `sharesProperty(runeA, runeB)`: false if either is absent; true if either
is wild; false if either is a skull; else equal colour or equal symbol. -/
def sharesProperty (runeA runeB : Option Rune) : Bool :=
  match runeA, runeB with
  | none, _ => false
  | _, none => false
  | some a, some b =>
    if b.isWild then true
    else if a.isWild then true
    else if a.isSkull || b.isSkull then false
    else a.color == b.color || a.symbol == b.symbol

/-- `countRunesOnBoard()`: the nested counting loop over
`y < gridHeight`, `x < gridWidth` of cells whose `rune` is present. -/
def GameState.countRunesOnBoard (s : GameState) : Nat :=
  ((List.range s.gridHeight).map (fun y =>
    (List.range s.gridWidth).countP (fun x =>
      match cellAt s.grid x y with
      | some c => c.rune.isSome
      | none => false))).sum

/-- `canPlaceAt(x, y)`: cell exists, a current rune exists and is not a
skull, the cell holds no rune; with no rune-holding neighbour the board must
be totally blank, otherwise the current rune must share a property with
every rune-holding neighbour. -/
def GameState.canPlaceAt (s : GameState) (x y : Int) : Bool :=
  match s.getCell x y, s.currentRune with
  | none, _ => false
  | _, none => false
  | some cell, some cur =>
    if cur.isSkull then false
    else if cell.rune.isSome then false
    else
      let adjacent := s.getAdjacentCells x y
      let neighborsWithRunes := adjacent.filter (fun adjCell => adjCell.rune.isSome)
      if neighborsWithRunes.isEmpty then
        s.countRunesOnBoard == 0
      else
        neighborsWithRunes.all (fun adjCell => sharesProperty (some cur) adjCell.rune)

/-- `canSkullRemoveAt(x, y)`: current rune is a skull and the target cell
holds a non-wild rune. -/
def GameState.canSkullRemoveAt (s : GameState) (x y : Int) : Bool :=
  match s.currentRune with
  | none => false
  | some cur =>
    if !cur.isSkull then false
    else
      match s.getCell x y with
      | none => false
      | some cell =>
        match cell.rune with
        | none => false
        | some r => !r.isWild

/-- `isLevelComplete()`: every cell's state is GOLD. -/
def GameState.isLevelComplete (s : GameState) : Bool :=
  s.grid.all (fun row => row.all (fun c => c.state == .gold))

/-- A row is full when every cell of it holds a rune. -/
def rowFull (row : List Cell) : Bool := row.all (fun c => c.rune.isSome)

/-- Clearing a full row: every cell becomes GOLD with its rune removed. -/
def clearRow (row : List Cell) : List Cell := row.map (fun _ => goldEmpty)

/-- The row half of `checkRowColumnBonuses`: walk the rows in order; a full
row is cleared and earns one bonus.  Returns the new rows, the points earned
and whether any row cleared. -/
def processRows (bonus : Nat) : Grid → Grid × Nat × Bool
  | [] => ([], 0, false)
  | row :: rest =>
    let r := processRows bonus rest
    if rowFull row then (clearRow row :: r.1, bonus + r.2.1, true)
    else (row :: r.1, r.2.1, r.2.2)

/-- Column `x` is full when `getCell(x, y)` exists and holds a rune for every
`y < h` (the source builds the column with `getCell` and tests
`c && c.rune !== null`; `x < gridWidth` holds at every use site). -/
def colFull (h : Nat) (g : Grid) (x : Nat) : Bool :=
  (List.range h).all (fun y =>
    match cellAt g x y with
    | some c => c.rune.isSome
    | none => false)

/-- Clearing column `x`: every existing cell `(x, y)`, `y` ascending from 0
to `h - 1`, becomes GOLD with its rune removed (the `if (c)` guard of the
source makes a missing cell a no-op). -/
def clearColAt (h x : Nat) (g : Grid) : Grid :=
  match h with
  | 0 => g
  | h' + 1 => setCellAt (clearColAt h' x g) x h' goldEmpty

/-- The column half of `checkRowColumnBonuses`: walk the columns `xs` in
order against the grid as mutated so far; a full column is cleared and earns
one bonus. -/
def processCols (bonus h : Nat) (xs : List Nat) (g : Grid) : Grid × Nat × Bool :=
  match xs with
  | [] => (g, 0, false)
  | x :: rest =>
    if colFull h g x then
      let r := processCols bonus h rest (clearColAt h x g)
      (r.1, bonus + r.2.1, true)
    else
      let r := processCols bonus h rest g
      (r.1, r.2.1, r.2.2)

/-- `checkRowColumnBonuses()`: clear full rows (in order), then full columns
(in order, against the already-mutated grid), each worth
`getRowClearPoints(board)`; if anything cleared, empty the forge; if
additionally the board now holds zero runes and is not fully GOLD, replace
the pending rune with a wild.  Returns the updated state and whether any
line cleared. -/
def GameState.checkRowColumnBonuses (s : GameState) : GameState × Bool :=
  let bonus := getRowClearPoints s.board
  let pr := processRows bonus s.grid
  let pc := processCols bonus s.gridHeight (List.range s.gridWidth) pr.1
  let anyCleared := pr.2.2 || pc.2.2
  let s1 : GameState :=
    { s with grid := pc.1, score := s.score + pr.2.1 + pc.2.1,
             forge := if anyCleared then [] else s.forge }
  let s2 : GameState :=
    if anyCleared && (s1.countRunesOnBoard == 0) && !s1.isLevelComplete then
      { s1 with currentRune := some grantedWild }
    else s1
  (s2, anyCleared)

/-- `onSuccessfulPlacement()`: pop one forge slot if the forge is non-empty
(JS `Array.pop` removes the last element). -/
def GameState.onSuccessfulPlacement (s : GameState) : GameState :=
  if s.forge.length > 0 then { s with forge := s.forge.dropLast } else s

/-- The result object of `placeRune`. -/
structure PlaceResult where
  placed : Bool
  rowColumnCleared : Bool
deriving DecidableEq

/-- `placeRune(x, y)`: validate; copy the current rune into the cell; award
placement points; bump the streak; pop one forge slot; run line-clear
resolution; then draw a fresh current rune (`fresh` is the oracle for
`createRune(board)`) and clear the selection. -/
def GameState.placeRune (s : GameState) (fresh : Rune) (x y : Int) :
    GameState × PlaceResult :=
  if s.canPlaceAt x y then
    match s.currentRune with
    | none => (s, { placed := false, rowColumnCleared := false })
    | some cur =>
      let s1 : GameState :=
        { s with grid := setRuneAt s.grid x.toNat y.toNat (some cur) }
      let pts := getPlacementPoints s1.board
      let s2 : GameState := { s1 with score := s1.score + pts }
      let s3 : GameState := { s2 with placementStreak := s2.placementStreak + 1 }
      let s4 : GameState :=
        if s3.placementStreak > s3.maxPlacementStreak then
          { s3 with maxPlacementStreak := s3.placementStreak }
        else s3
      let s5 := s4.onSuccessfulPlacement
      let cb := s5.checkRowColumnBonuses
      let s6 : GameState :=
        { cb.1 with currentRune := some fresh, selectedCell := none }
      (s6, { placed := true, rowColumnCleared := cb.2 })
  else (s, { placed := false, rowColumnCleared := false })

/-- `useSkullToRemove(x, y)`: needs a skull current rune and a target cell
holding a non-wild rune; clears that rune, draws a fresh current rune and
pops one forge slot if non-empty. -/
def GameState.useSkullToRemove (s : GameState) (fresh : Rune) (x y : Int) :
    GameState × Bool :=
  match s.currentRune with
  | none => (s, false)
  | some cur =>
    if !cur.isSkull then (s, false)
    else
      match s.getCell x y with
      | none => (s, false)
      | some cell =>
        match cell.rune with
        | none => (s, false)
        | some r =>
          if r.isWild then (s, false)
          else
            ({ s with grid := setRuneAt s.grid x.toNat y.toNat none,
                      currentRune := some fresh,
                      forge := if s.forge.length > 0 then s.forge.dropLast else s.forge },
             true)

/-- `discardToForge()`: needs a current rune and spare forge capacity; pushes
the current rune, draws a fresh one, clears selection and resets the
placement streak. -/
def GameState.discardToForge (s : GameState) (fresh : Rune) : GameState × Bool :=
  match s.currentRune with
  | none => (s, false)
  | some cur =>
    if s.forge.length ≥ s.forgeCapacity then (s, false)
    else
      ({ s with forge := s.forge ++ [cur], currentRune := some fresh,
                selectedCell := none, placementStreak := 0 },
       true)

/-- `isForgeFull()`: `forge.length >= forgeCapacity`. -/
def GameState.isForgeFull (s : GameState) : Bool :=
  s.forgeCapacity ≤ s.forge.length

/-- `hasValidPlacement()`: a skull current rune needs a removable cell, any
other current rune needs a placeable cell; no current rune means false. -/
def GameState.hasValidPlacement (s : GameState) : Bool :=
  match s.currentRune with
  | none => false
  | some cur =>
    if cur.isSkull then
      (List.range s.gridHeight).any (fun y =>
        (List.range s.gridWidth).any (fun x =>
          s.canSkullRemoveAt (Int.ofNat x) (Int.ofNat y)))
    else
      (List.range s.gridHeight).any (fun y =>
        (List.range s.gridWidth).any (fun x =>
          s.canPlaceAt (Int.ofNat x) (Int.ofNat y)))

/-- `isGameOver()`: forge full and no valid placement/action. -/
def GameState.isGameOver (s : GameState) : Bool :=
  s.isForgeFull && !s.hasValidPlacement

/-- The fresh all-LEAD row of `init`. -/
def mkRow (w : Nat) : List Cell := (List.range w).map (fun _ => leadEmpty)

/-- The fresh all-LEAD grid of `init` (rows indexed by `y`). -/
def mkGrid (w h : Nat) : Grid := (List.range h).map (fun _ => mkRow w)

/-- `init(preserveScore)`: rebuild the grid all-LEAD with no runes, put the
starting wild at `(4, 3)` when that cell exists, draw a current rune, empty
the forge, and unless the score is preserved reset score, board, streaks and
stats; clear selection. -/
def GameState.init (s : GameState) (fresh : Rune) (preserveScore : Bool) : GameState :=
  let g0 := mkGrid s.gridWidth s.gridHeight
  let g1 :=
    match getCellG s.gridWidth s.gridHeight g0 (Int.ofNat STARTING_RUNE_X)
        (Int.ofNat STARTING_RUNE_Y) with
    | some _ => setRuneAt g0 STARTING_RUNE_X STARTING_RUNE_Y (some STARTING_RUNE)
    | none => g0
  { s with grid := g1,
           currentRune := some fresh,
           forge := [],
           score := if preserveScore then s.score else 0,
           board := if preserveScore then s.board else s.startBoard,
           placementStreak := if preserveScore then s.placementStreak else 0,
           maxPlacementStreak := if preserveScore then s.maxPlacementStreak else 0,
           boardsCleared := if preserveScore then s.boardsCleared else 0,
           selectedCell := none }

/-- The `GameState` constructor: resolve the configuration with `??`
defaults (8, 8, 3, 1, 1), zero the state and run `init()` (which is called
with `preserveScore = false`). -/
def GameState.new (config : Config) (fresh : Rune) : GameState :=
  let s0 : GameState :=
    { gridWidth := config.gridWidth.getD 8,
      gridHeight := config.gridHeight.getD 8,
      forgeCapacity := config.forgeCapacity.getD 3,
      skillLevel := config.skillLevel.getD 1,
      startBoard := config.startBoard.getD 1,
      grid := [],
      currentRune := none,
      forge := [],
      score := 0,
      board := config.startBoard.getD 1,
      selectedCell := none,
      placementStreak := 0,
      maxPlacementStreak := 0,
      boardsCleared := 0 }
  s0.init fresh false

/-- The in-place grid reset of `startNewRound`: every cell `(x, y)` with
`y < h`, `x < w` is set back to LEAD with no rune, in loop order. -/
def resetGridLoop (w h : Nat) (g : Grid) : Grid :=
  (List.range h).foldl
    (fun g1 y => (List.range w).foldl (fun g2 x => setCellAt g2 x y leadEmpty) g1) g

/-- `startNewRound()`: advance `board`, reset the grid to LEAD/no-rune, put
the starting wild at `(4, 3)` when that cell exists, pop one forge slot if
non-empty, draw a current rune, clear selection.  Score and stats persist. -/
def GameState.startNewRound (s : GameState) (fresh : Rune) : GameState :=
  let g1 := resetGridLoop s.gridWidth s.gridHeight s.grid
  let g2 :=
    match getCellG s.gridWidth s.gridHeight g1 (Int.ofNat STARTING_RUNE_X)
        (Int.ofNat STARTING_RUNE_Y) with
    | some _ => setRuneAt g1 STARTING_RUNE_X STARTING_RUNE_Y (some STARTING_RUNE)
    | none => g1
  { s with board := s.board + 1,
           grid := g2,
           forge := if s.forge.length > 0 then s.forge.dropLast else s.forge,
           currentRune := some fresh,
           selectedCell := none }

/-- Well-formedness of a state's grid: exactly `gridHeight` rows of exactly
`gridWidth` cells (always true of engine-built grids). -/
def WF (s : GameState) : Bool :=
  (s.grid.length == s.gridHeight) && s.grid.all (fun row => row.length == s.gridWidth)

/-! ### Concrete states used as counterexamples, failing inputs and witnesses -/

/-- An ordinary (non-wild, non-skull) rune. -/
def crimsonAries : Rune := { color := some "crimson", symbol := some "aries" }

/-- A skull rune (`SKULL_RUNE` of the source: only the `isSkull` flag). -/
def SKULL_RUNE : Rune := { isSkull := true }

/-- A 2×3 position: rows 0 and 1 become full once `(1, 1)` is filled, but
row 2 stays rune-free and LEAD, so a placement at `(1, 1)` wipes every rune
from the board without finishing the level. -/
def c1State : GameState :=
  { gridWidth := 2, gridHeight := 3, forgeCapacity := 3, skillLevel := 1, startBoard := 1,
    grid := [[⟨.lead, some crimsonAries⟩, ⟨.lead, some crimsonAries⟩],
             [⟨.lead, some crimsonAries⟩, ⟨.lead, none⟩],
             [⟨.lead, none⟩, ⟨.lead, none⟩]],
    currentRune := some crimsonAries, forge := [], score := 0, board := 1,
    selectedCell := none, placementStreak := 0, maxPlacementStreak := 0, boardsCleared := 0 }

/-- `c1State` as it stands inside `placeRune (1, 1)` right before the
line-clear resolution step (rune copied in, points and streak booked). -/
def c1Mid : GameState :=
  { c1State with grid := setRuneAt c1State.grid 1 1 (some crimsonAries),
                 score := 10, placementStreak := 1, maxPlacementStreak := 1 }

/-- A 2×2 position in which row 0 is full and column 0 is full
(cells `(0,0)`, `(1,0)`, `(0,1)` hold runes, `(1,1)` is empty). -/
def c2State : GameState :=
  { gridWidth := 2, gridHeight := 2, forgeCapacity := 3, skillLevel := 1, startBoard := 1,
    grid := [[⟨.lead, some crimsonAries⟩, ⟨.lead, some crimsonAries⟩],
             [⟨.lead, some crimsonAries⟩, ⟨.lead, none⟩]],
    currentRune := some crimsonAries, forge := [crimsonAries], score := 0, board := 1,
    selectedCell := none, placementStreak := 0, maxPlacementStreak := 0, boardsCleared := 0 }

end Glitters

namespace Glitters

/-! ### Basic lemmas about the list helpers -/

theorem modifyIdx_length (f : α → α) (n : Nat) (l : List α) :
    (modifyIdx f n l).length = l.length := by
  induction l generalizing n with
  | nil => cases n <;> rfl
  | cons a as ih => cases n <;> simp [modifyIdx, ih]

theorem getElem?_modifyIdx_eq (f : α → α) (n : Nat) (l : List α) :
    (modifyIdx f n l)[n]? = (l[n]?).map f := by
  induction l generalizing n with
  | nil => cases n <;> rfl
  | cons a as ih => cases n <;> simp [modifyIdx, ih]

theorem getElem?_modifyIdx_ne (f : α → α) (n m : Nat) (l : List α) (h : m ≠ n) :
    (modifyIdx f n l)[m]? = l[m]? := by
  induction l generalizing n m with
  | nil => cases n <;> rfl
  | cons a as ih =>
    cases n with
    | zero => cases m with
      | zero => exact absurd rfl h
      | succ m' => simp [modifyIdx]
    | succ n' => cases m with
      | zero => simp [modifyIdx]
      | succ m' => simp only [modifyIdx, List.getElem?_cons_succ]
                   exact ih n' m' (fun he => h (by simp [he]))

theorem cellAt_setRuneAt (g : Grid) (x y : Nat) (r : Option Rune) (i j : Nat) :
    cellAt (setRuneAt g x y r) i j =
      if i = x ∧ j = y then (cellAt g x y).map (fun c => { c with rune := r })
      else cellAt g i j := by
  by_cases hj : j = y
  · subst hj
    by_cases hi : i = x
    · subst hi
      simp only [cellAt, setRuneAt, getElem?_modifyIdx_eq, and_self, if_true]
      cases g[j]? <;> simp [getElem?_modifyIdx_eq]
    · simp only [cellAt, setRuneAt, getElem?_modifyIdx_eq, hi, false_and, if_false]
      cases g[j]? <;> simp [getElem?_modifyIdx_ne _ _ _ _ hi]
  · simp [cellAt, setRuneAt, getElem?_modifyIdx_ne _ _ _ _ hj, hj]

theorem cellAt_setCellAt (g : Grid) (x y : Nat) (c : Cell) (i j : Nat) :
    cellAt (setCellAt g x y c) i j =
      if i = x ∧ j = y then (cellAt g x y).map (fun _ => c)
      else cellAt g i j := by
  by_cases hj : j = y
  · subst hj
    by_cases hi : i = x
    · subst hi
      simp only [cellAt, setCellAt, getElem?_modifyIdx_eq, and_self, if_true]
      cases g[j]? <;> simp [getElem?_modifyIdx_eq]
    · simp only [cellAt, setCellAt, getElem?_modifyIdx_eq, hi, false_and, if_false]
      cases g[j]? <;> simp [getElem?_modifyIdx_ne _ _ _ _ hi]
  · simp [cellAt, setCellAt, getElem?_modifyIdx_ne _ _ _ _ hj, hj]

theorem dropLast_cond (l : List α) :
    (if l.length > 0 then l.dropLast else l) = l.dropLast := by
  cases l <;> simp

/-! ### Field-preservation lemmas for the state operations -/

theorem onSuccessfulPlacement_forge (s : GameState) :
    s.onSuccessfulPlacement.forge = s.forge.dropLast := by
  unfold GameState.onSuccessfulPlacement
  rw [← dropLast_cond s.forge]
  split <;> rfl

theorem onSuccessfulPlacement_eq (s : GameState) :
    s.onSuccessfulPlacement = { s with forge := s.forge.dropLast } := by
  unfold GameState.onSuccessfulPlacement
  split
  · rfl
  · next h =>
    obtain ⟨_, _, _, _, _, _, _, forge, _, _, _, _, _, _⟩ := s
    cases forge with
    | nil => rfl
    | cons a l => simp at h

theorem checkRowColumnBonuses_forgeCapacity (s : GameState) :
    (s.checkRowColumnBonuses).1.forgeCapacity = s.forgeCapacity := by
  unfold GameState.checkRowColumnBonuses
  dsimp only
  split <;> split <;> rfl

theorem checkRowColumnBonuses_forge (s : GameState) :
    (s.checkRowColumnBonuses).1.forge = [] ∨ (s.checkRowColumnBonuses).1.forge = s.forge := by
  unfold GameState.checkRowColumnBonuses
  dsimp only
  split <;> split
  · exact Or.inl rfl
  · exact Or.inl rfl
  · exact Or.inr rfl
  · exact Or.inr rfl

theorem placeRune_fst_forge (s : GameState) (fresh : Rune) (x y : Int) :
    (s.placeRune fresh x y).1.forgeCapacity = s.forgeCapacity ∧
    ((s.placeRune fresh x y).1.forge = s.forge ∨
     (s.placeRune fresh x y).1.forge = [] ∨
     (s.placeRune fresh x y).1.forge = s.forge.dropLast) := by
  unfold GameState.placeRune
  split
  · split
    · exact ⟨rfl, Or.inl rfl⟩
    · dsimp only
      split
      all_goals
        rw [onSuccessfulPlacement_eq]
        refine ⟨checkRowColumnBonuses_forgeCapacity _, ?_⟩
        rcases checkRowColumnBonuses_forge _ with hf | hf
        · exact Or.inr (Or.inl hf)
        · exact Or.inr (Or.inr hf)
  · exact ⟨rfl, Or.inl rfl⟩

theorem useSkullToRemove_fst_forge (s : GameState) (fresh : Rune) (x y : Int) :
    (s.useSkullToRemove fresh x y).1.forgeCapacity = s.forgeCapacity ∧
    ((s.useSkullToRemove fresh x y).1.forge = s.forge ∨
     (s.useSkullToRemove fresh x y).1.forge = s.forge.dropLast) := by
  unfold GameState.useSkullToRemove
  split
  · exact ⟨rfl, Or.inl rfl⟩
  · split
    · exact ⟨rfl, Or.inl rfl⟩
    · split
      · exact ⟨rfl, Or.inl rfl⟩
      · split
        · exact ⟨rfl, Or.inl rfl⟩
        · split
          · exact ⟨rfl, Or.inl rfl⟩
          · exact ⟨rfl, Or.inr (dropLast_cond s.forge)⟩

/-- A successful skull use is exactly: remove the target cell's rune, draw
the fresh rune, pop the last forge slot; nothing else. -/
theorem useSkullToRemove_success_eq (s : GameState) (fresh : Rune) (x y : Int)
    (h : (s.useSkullToRemove fresh x y).2 = true) :
    (s.useSkullToRemove fresh x y).1 =
      { s with grid := setRuneAt s.grid x.toNat y.toNat none,
               currentRune := some fresh,
               forge := s.forge.dropLast } := by
  revert h
  unfold GameState.useSkullToRemove
  split
  · intro h; simp at h
  · split
    · intro h; simp at h
    · split
      · intro h; simp at h
      · split
        · intro h; simp at h
        · split
          · intro h; simp at h
          · intro _
            dsimp only
            rw [dropLast_cond]

/-! ### C1 -/

/-- C1 (claim, evaluated at the failing input): on `c1State`, placing at
`(1, 1)` clears rows 0 and 1, leaving zero runes on a board that is not
fully GOLD — yet the pending rune `placeRune` leaves behind is the fresh
draw (here the non-wild `crimsonAries`), not a wild: line-clear resolution
does grant the compensation wild, but `placeRune` then overwrites
`currentRune` with `createRune(board)`, so the grant is lost. -/
theorem C1_placeRune_clobbers_wild_grant :
    (c1State.placeRune crimsonAries 1 1).2.placed = true ∧
    (c1State.placeRune crimsonAries 1 1).2.rowColumnCleared = true ∧
    (c1State.placeRune crimsonAries 1 1).1.countRunesOnBoard = 0 ∧
    (c1State.placeRune crimsonAries 1 1).1.isLevelComplete = false ∧
    (c1Mid.checkRowColumnBonuses).1.currentRune = some grantedWild ∧
    (c1State.placeRune crimsonAries 1 1).1.currentRune = some crimsonAries ∧
    crimsonAries.isWild = false := by
  decide

/-! ### C2 -/

/-- C2 (counterexample): in `c2State`, row 0 is full and column 0 is full
before resolution, yet `checkRowColumnBonuses` does not clear both lines:
the row pass empties the intersection cell `(0, 0)`, so the column pass no
longer finds column 0 full — cell `(0, 1)` keeps its rune and LEAD state,
and only one line bonus (25) is awarded instead of two. -/
theorem C2_counterexample :
    rowFull (c2State.grid.headI) = true ∧
    colFull 2 c2State.grid 0 = true ∧
    cellAt (c2State.checkRowColumnBonuses).1.grid 0 1 = some ⟨.lead, some crimsonAries⟩ ∧
    (c2State.checkRowColumnBonuses).1.score = c2State.score + getRowClearPoints c2State.board := by
  decide

/-! ### C8 -/

/-- C8 (counterexample): a `GameState` built from an empty configuration
object does not have `gridWidth = 9`; the constructor default is
`config.gridWidth ?? 8`. -/
theorem C8_counterexample :
    ¬ ((GameState.new {} crimsonAries).gridWidth = 9 ∧
       (GameState.new {} crimsonAries).gridHeight = 8 ∧
       (GameState.new {} crimsonAries).forgeCapacity = 3) := by
  decide

/-- C8 (amended): a `GameState` constructed with an empty configuration
object has `gridWidth 8`, `gridHeight 8` and `forgeCapacity 3`, whatever
rune the initial draw produces. -/
theorem C8_default_dimensions (fresh : Rune) :
    (GameState.new {} fresh).gridWidth = 8 ∧
    (GameState.new {} fresh).gridHeight = 8 ∧
    (GameState.new {} fresh).forgeCapacity = 3 := by
  refine ⟨rfl, rfl, rfl⟩

/-! ### Well-formedness and cell-access lemmas -/

theorem WF_spec (s : GameState) (hWF : WF s = true) :
    s.grid.length = s.gridHeight ∧ ∀ row ∈ s.grid, row.length = s.gridWidth := by
  unfold WF at hWF
  simp only [Bool.and_eq_true, beq_iff_eq, List.all_eq_true] at hWF
  exact ⟨hWF.1, fun row hr => hWF.2 row hr⟩

theorem cellAt_isSome_of_WF (s : GameState) (hWF : WF s = true) (i j : Nat)
    (hi : i < s.gridWidth) (hj : j < s.gridHeight) :
    ∃ c, cellAt s.grid i j = some c := by
  obtain ⟨hl, hrows⟩ := WF_spec s hWF
  have hj' : j < s.grid.length := by omega
  have hrow : s.grid[j]? = some s.grid[j] := List.getElem?_eq_getElem hj'
  have hmem : s.grid[j] ∈ s.grid := List.getElem_mem hj'
  have hlen : (s.grid[j]).length = s.gridWidth := hrows _ hmem
  have hi' : i < (s.grid[j]).length := by omega
  refine ⟨(s.grid[j])[i], ?_⟩
  unfold cellAt
  rw [hrow, Option.some_bind]
  exact List.getElem?_eq_getElem hi'

theorem getCellG_eq (w h : Nat) (g : Grid) (x y : Int) :
    getCellG w h g x y =
      if 0 ≤ x ∧ x < (w : Int) ∧ 0 ≤ y ∧ y < (h : Int) then cellAt g x.toNat y.toNat
      else none := by
  unfold getCellG
  split
  · next hc => rw [if_neg (by omega)]
  · next hc => rw [if_pos (by omega)]

theorem getCell_isSome_of_WF (s : GameState) (hWF : WF s = true) (x y : Int)
    (hb : 0 ≤ x ∧ x < (s.gridWidth : Int) ∧ 0 ≤ y ∧ y < (s.gridHeight : Int)) :
    ∃ c, s.getCell x y = some c := by
  rw [GameState.getCell, getCellG_eq, if_pos hb]
  exact cellAt_isSome_of_WF s hWF _ _ (by omega) (by omega)

theorem getCell_bounds (s : GameState) (x y : Int) (c : Cell)
    (h : s.getCell x y = some c) :
    0 ≤ x ∧ x < (s.gridWidth : Int) ∧ 0 ≤ y ∧ y < (s.gridHeight : Int) := by
  rw [GameState.getCell, getCellG_eq] at h
  by_contra hb
  rw [if_neg hb] at h
  exact Option.noConfusion h

theorem getCell_eq_cellAt (s : GameState) (x y : Int)
    (hb : 0 ≤ x ∧ x < (s.gridWidth : Int) ∧ 0 ≤ y ∧ y < (s.gridHeight : Int)) :
    s.getCell x y = cellAt s.grid x.toNat y.toNat := by
  rw [GameState.getCell, getCellG_eq, if_pos hb]

/-- The board-holds-zero-runes test of the source (`countRunesOnBoard() === 0`)
says exactly that every existing in-range cell holds no rune. -/
theorem countRunesOnBoard_eq_zero_iff (s : GameState) :
    s.countRunesOnBoard = 0 ↔
    (∀ j i : Nat, j < s.gridHeight → i < s.gridWidth →
       ∀ c, cellAt s.grid i j = some c → c.rune = none) := by
  unfold GameState.countRunesOnBoard
  rw [List.sum_eq_zero_iff]
  constructor
  · intro hall j i hj hi c hc
    have hj0 := hall _ (List.mem_map.mpr ⟨j, List.mem_range.mpr hj, rfl⟩)
    rw [List.countP_eq_zero] at hj0
    have hfalse := hj0 i (List.mem_range.mpr hi)
    rw [hc] at hfalse
    dsimp only at hfalse
    cases hr : c.rune with
    | none => rfl
    | some r => rw [hr] at hfalse; simp at hfalse
  · intro hall n hn
    obtain ⟨j, hj, rfl⟩ := List.mem_map.mp hn
    rw [List.countP_eq_zero]
    intro i hi
    rw [List.mem_range] at hi hj
    cases hc : cellAt s.grid i j with
    | none => simp [hc]
    | some c =>
      have := hall j i hj hi c hc
      simp [hc, this]

/-- Characterization of `canPlaceAt` (for well-formed grids): true exactly
when the cell is in bounds and holds no rune, a current non-skull rune
exists, and either there is no rune-holding orthogonal neighbour and the
whole board holds zero runes, or there is at least one and the current rune
shares a property with every one of them. -/
theorem canPlaceAt_char (s : GameState) (hWF : WF s = true) (x y : Int) :
    s.canPlaceAt x y = true ↔
      ((0 ≤ x ∧ x < (s.gridWidth : Int) ∧ 0 ≤ y ∧ y < (s.gridHeight : Int)) ∧
       (∀ c, s.getCell x y = some c → c.rune = none) ∧
       ∃ cur, s.currentRune = some cur ∧ cur.isSkull = false ∧
         (((s.getAdjacentCells x y).filter (fun c => c.rune.isSome) = [] ∧
            (∀ j i : Nat, j < s.gridHeight → i < s.gridWidth →
              ∀ c, cellAt s.grid i j = some c → c.rune = none)) ∨
          ((s.getAdjacentCells x y).filter (fun c => c.rune.isSome) ≠ [] ∧
            ∀ c ∈ (s.getAdjacentCells x y).filter (fun c => c.rune.isSome),
              sharesProperty (some cur) c.rune = true))) := by
  unfold GameState.canPlaceAt
  cases hg : s.getCell x y with
  | none =>
    refine iff_of_false (by simp) ?_
    rintro ⟨hb, -, -⟩
    obtain ⟨c, hc⟩ := getCell_isSome_of_WF s hWF x y hb
    rw [hg] at hc
    exact Option.noConfusion hc
  | some cell =>
    cases hcur : s.currentRune with
    | none =>
      refine iff_of_false (by simp) ?_
      rintro ⟨-, -, cur, hcur', -⟩
      exact Option.noConfusion hcur'
    | some cur =>
      dsimp only
      have hb := getCell_bounds s x y cell hg
      cases hsk : cur.isSkull with
      | true =>
        rw [if_pos rfl]
        refine iff_of_false (by simp) ?_
        rintro ⟨-, -, cur', hcur', hsk', -⟩
        rw [Option.some_inj] at hcur'
        rw [← hcur'] at hsk'
        rw [hsk] at hsk'
        exact Bool.noConfusion hsk'
      | false =>
        rw [if_neg Bool.false_ne_true]
        cases hrune : cell.rune with
        | some r =>
          rw [if_pos (show ((some r : Option Rune).isSome = true) from rfl)]
          refine iff_of_false (by simp) ?_
          rintro ⟨-, hnone, -⟩
          have := hnone cell rfl
          rw [hrune] at this
          exact Option.noConfusion this
        | none =>
          rw [if_neg (show ¬((none : Option Rune).isSome = true) from by simp)]
          cases hemp : ((s.getAdjacentCells x y).filter (fun c => c.rune.isSome)).isEmpty with
          | true =>
            rw [if_pos rfl]
            rw [List.isEmpty_iff] at hemp
            constructor
            · intro hcnt
              rw [Nat.beq_eq_true_eq] at hcnt
              exact ⟨hb, fun c hc => by cases hc; exact hrune,
                cur, rfl, hsk, Or.inl ⟨hemp, (countRunesOnBoard_eq_zero_iff s).mp hcnt⟩⟩
            · rintro ⟨-, -, cur', hcur', -, hdisj⟩
              rcases hdisj with ⟨-, hempty⟩ | ⟨hne, -⟩
              · rw [Nat.beq_eq_true_eq]
                exact (countRunesOnBoard_eq_zero_iff s).mpr hempty
              · exact absurd hemp hne
          | false =>
            rw [if_neg Bool.false_ne_true]
            have hne : (s.getAdjacentCells x y).filter (fun c => c.rune.isSome) ≠ [] := by
              intro hnil
              rw [hnil] at hemp
              simp at hemp
            constructor
            · intro hall
              rw [List.all_eq_true] at hall
              exact ⟨hb, fun c hc => by cases hc; exact hrune,
                cur, rfl, hsk, Or.inr ⟨hne, fun c hc => hall c hc⟩⟩
            · rintro ⟨-, -, cur', hcur', -, hdisj⟩
              rw [Option.some_inj] at hcur'
              subst hcur'
              rw [List.all_eq_true]
              rcases hdisj with ⟨hnil, -⟩ | ⟨-, hall⟩
              · exact absurd hnil hne
              · exact fun c hc => hall c hc

/-! ### Lemmas about the line-clear passes -/

theorem getElem?_processRows (bonus : Nat) (g : Grid) (y : Nat) :
    (processRows bonus g).1[y]? =
      (g[y]?).map (fun row => if rowFull row then clearRow row else row) := by
  induction g generalizing y with
  | nil => cases y <;> rfl
  | cons row rest ih =>
    rw [processRows]
    cases y with
    | zero =>
      cases hf : rowFull row with
      | true => rw [if_pos rfl]; simp [hf]
      | false => rw [if_neg Bool.false_ne_true]; simp [hf]
    | succ y' =>
      cases hf : rowFull row with
      | true => rw [if_pos rfl]; simpa using ih y'
      | false => rw [if_neg Bool.false_ne_true]; simpa using ih y'

theorem processRows_pts (bonus : Nat) (g : Grid) :
    (processRows bonus g).2.1 = bonus * g.countP rowFull := by
  induction g with
  | nil => simp [processRows]
  | cons row rest ih =>
    rw [processRows]
    rw [List.countP_cons]
    cases hf : rowFull row with
    | true =>
      rw [if_pos rfl]
      dsimp only
      rw [ih, if_pos rfl, Nat.mul_add, Nat.mul_one]
      exact Nat.add_comm _ _
    | false =>
      rw [if_neg Bool.false_ne_true]
      dsimp only
      rw [ih, if_neg Bool.false_ne_true, Nat.add_zero]

theorem processRows_any (bonus : Nat) (g : Grid) :
    (processRows bonus g).2.2 = g.any rowFull := by
  induction g with
  | nil => simp [processRows]
  | cons row rest ih =>
    rw [processRows]
    rw [List.any_cons]
    cases hf : rowFull row with
    | true => rw [if_pos rfl, Bool.true_or]
    | false =>
      rw [if_neg Bool.false_ne_true]
      dsimp only
      rw [ih, Bool.false_or]

theorem cellAt_clearColAt (h x : Nat) (g : Grid) (i j : Nat) :
    cellAt (clearColAt h x g) i j =
      if i = x ∧ j < h then (cellAt g i j).map (fun _ => goldEmpty)
      else cellAt g i j := by
  induction h with
  | zero =>
    rw [clearColAt, if_neg]
    rintro ⟨-, hj⟩
    omega
  | succ h' ih =>
    rw [clearColAt, cellAt_setCellAt]
    by_cases hij : i = x ∧ j = h'
    · obtain ⟨hi, hj⟩ := hij
      subst hi; subst hj
      rw [if_pos ⟨rfl, rfl⟩, if_pos ⟨rfl, by omega⟩, ih,
        if_neg (by rintro ⟨-, hj⟩; omega)]
    · rw [if_neg hij, ih]
      by_cases hij2 : i = x ∧ j < h'
      · rw [if_pos hij2, if_pos ⟨hij2.1, by omega⟩]
      · rw [if_neg hij2, if_neg]
        rintro ⟨hi, hj⟩
        rcases Nat.lt_succ_iff_lt_or_eq.mp hj with hj' | hj'
        · exact hij2 ⟨hi, hj'⟩
        · exact hij ⟨hi, hj'⟩

theorem processCols_preserves_gold (bonus h : Nat) (xs : List Nat) (g : Grid)
    (i j : Nat) (hg : cellAt g i j = some goldEmpty) :
    cellAt (processCols bonus h xs g).1 i j = some goldEmpty := by
  induction xs generalizing g with
  | nil => exact hg
  | cons x' rest ih =>
    rw [processCols]
    dsimp only
    split
    · refine ih (clearColAt h x' g) ?_
      rw [cellAt_clearColAt]
      split
      · rw [hg]; rfl
      · exact hg
    · exact ih g hg

theorem colFull_congr (h : Nat) (g g' : Grid) (x : Nat)
    (hsame : ∀ j, j < h → cellAt g' x j = cellAt g x j) :
    colFull h g' x = colFull h g x := by
  unfold colFull
  rw [Bool.eq_iff_iff, List.all_eq_true, List.all_eq_true]
  constructor
  · intro hall j hj
    have := hall j hj
    rw [hsame j (List.mem_range.mp hj)] at this
    exact this
  · intro hall j hj
    have := hall j hj
    rw [hsame j (List.mem_range.mp hj)]
    exact this

theorem colFull_eq_false_of_none (h : Nat) (g : Grid) (x y0 : Nat) (hy0 : y0 < h)
    (hnone : ∀ c, cellAt g x y0 = some c → c.rune = none) :
    colFull h g x = false := by
  cases hcf : colFull h g x with
  | false => rfl
  | true =>
    exfalso
    unfold colFull at hcf
    rw [List.all_eq_true] at hcf
    have := hcf y0 (List.mem_range.mpr hy0)
    cases hc : cellAt g x y0 with
    | none => rw [hc] at this; simp at this
    | some c =>
      rw [hc] at this
      dsimp only at this
      rw [hnone c hc] at this
      simp at this

theorem cellAt_processCols_of_nonfull (bonus h : Nat) (xs : List Nat) (g : Grid)
    (x y0 : Nat) (hy0 : y0 < h)
    (hnone : ∀ c, cellAt g x y0 = some c → c.rune = none) :
    ∀ j, cellAt (processCols bonus h xs g).1 x j = cellAt g x j := by
  induction xs generalizing g with
  | nil => intro j; rfl
  | cons x' rest ih =>
    intro j
    rw [processCols]
    by_cases hxx : x' = x
    · subst hxx
      have hcf := colFull_eq_false_of_none h g x' y0 hy0 hnone
      split
      · next hcond => rw [hcf] at hcond; exact Bool.noConfusion hcond
      · exact ih g hnone j
    · split
      · have hkeep : ∀ jj, cellAt (clearColAt h x' g) x jj = cellAt g x jj := by
          intro jj
          rw [cellAt_clearColAt, if_neg]
          rintro ⟨hi, -⟩
          exact hxx hi.symm
        rw [ih (clearColAt h x' g) (fun c hc => hnone c ((hkeep y0) ▸ hc)) j]
        exact hkeep j
      · exact ih g hnone j

theorem processCols_clears_full (bonus h : Nat) (xs : List Nat) (g : Grid)
    (x : Nat) (hx : x ∈ xs) (hfull : colFull h g x = true) :
    ∀ j, j < h → cellAt (processCols bonus h xs g).1 x j = some goldEmpty := by
  induction xs generalizing g with
  | nil => cases hx
  | cons x' rest ih =>
    intro j hj
    by_cases hxx : x' = x
    · subst hxx
      rw [processCols]
      dsimp only
      rw [if_pos hfull]
      dsimp only
      apply processCols_preserves_gold
      rw [cellAt_clearColAt, if_pos ⟨rfl, hj⟩]
      have hsome : ∃ c, cellAt g x' j = some c := by
        unfold colFull at hfull
        rw [List.all_eq_true] at hfull
        have := hfull j (List.mem_range.mpr hj)
        cases hc : cellAt g x' j with
        | none => rw [hc] at this; simp at this
        | some c => exact ⟨c, rfl⟩
      obtain ⟨c, hc⟩ := hsome
      rw [hc]
      rfl
    · have hx' : x ∈ rest := by
        cases hx with
        | head => exact absurd rfl hxx
        | tail _ hmem => exact hmem
      rw [processCols]
      dsimp only
      split
      · have hkeep : ∀ jj, jj < h → cellAt (clearColAt h x' g) x jj = cellAt g x jj := by
          intro jj _
          rw [cellAt_clearColAt, if_neg]
          rintro ⟨hi, -⟩
          exact hxx hi.symm
        exact ih (clearColAt h x' g) hx'
          ((colFull_congr h g (clearColAt h x' g) x hkeep).trans hfull) j hj
      · exact ih g hx' hfull j hj

theorem processCols_pts_any (bonus h : Nat) (xs : List Nat) (g : Grid)
    (hnd : xs.Nodup) :
    (processCols bonus h xs g).2.1 = bonus * (xs.countP (fun x => colFull h g x)) ∧
    (processCols bonus h xs g).2.2 = xs.any (fun x => colFull h g x) := by
  induction xs generalizing g with
  | nil => exact ⟨rfl, rfl⟩
  | cons x' rest ih =>
    rw [List.nodup_cons] at hnd
    rw [processCols]
    rw [List.countP_cons, List.any_cons]
    cases hcf : colFull h g x' with
    | true =>
      rw [if_pos rfl]
      dsimp only
      obtain ⟨hp, -⟩ := ih (clearColAt h x' g) hnd.2
      have hcongr : ∀ z ∈ rest, colFull h (clearColAt h x' g) z = colFull h g z := by
        intro z hz
        refine colFull_congr h g _ z ?_
        intro jj _
        rw [cellAt_clearColAt, if_neg]
        rintro ⟨hi, -⟩
        exact hnd.1 (hi ▸ hz)
      have hcnt : rest.countP (fun z => colFull h (clearColAt h x' g) z)
          = rest.countP (fun z => colFull h g z) :=
        List.countP_congr (fun z hz => by rw [hcongr z hz])
      constructor
      · rw [hp, hcnt, if_pos rfl, Nat.mul_add, Nat.mul_one]
        exact Nat.add_comm _ _
      · rfl
    | false =>
      rw [if_neg Bool.false_ne_true]
      obtain ⟨hp, ha⟩ := ih g hnd.2
      exact ⟨by rw [hp, if_neg Bool.false_ne_true, Nat.add_zero],
             by rw [ha, Bool.false_or]⟩

/-- The grid, score, cleared flag and forge discipline of
`checkRowColumnBonuses`, expressed through the two passes. -/
theorem checkRowColumnBonuses_unfold (s : GameState) :
    (s.checkRowColumnBonuses).1.grid =
      (processCols (getRowClearPoints s.board) s.gridHeight (List.range s.gridWidth)
        (processRows (getRowClearPoints s.board) s.grid).1).1 ∧
    (s.checkRowColumnBonuses).1.score =
      s.score + (processRows (getRowClearPoints s.board) s.grid).2.1
              + (processCols (getRowClearPoints s.board) s.gridHeight
                  (List.range s.gridWidth)
                  (processRows (getRowClearPoints s.board) s.grid).1).2.1 ∧
    (s.checkRowColumnBonuses).2 =
      ((processRows (getRowClearPoints s.board) s.grid).2.2 ||
       (processCols (getRowClearPoints s.board) s.gridHeight
          (List.range s.gridWidth)
          (processRows (getRowClearPoints s.board) s.grid).1).2.2) ∧
    ((s.checkRowColumnBonuses).2 = true → (s.checkRowColumnBonuses).1.forge = []) := by
  unfold GameState.checkRowColumnBonuses
  dsimp only
  refine ⟨?_, ?_, ?_, ?_⟩
  · split <;> split <;> rfl
  · split <;> split <;> rfl
  · rfl
  · split <;> split <;> intro h2 <;> first | rfl | exact absurd h2 (by assumption)

theorem row_length_of_WF (s : GameState) (hWF : WF s = true) (y : Nat)
    (row : List Cell) (hrow : s.grid[y]? = some row) : row.length = s.gridWidth := by
  obtain ⟨-, hrows⟩ := WF_spec s hWF
  obtain ⟨hlt, heq⟩ := List.getElem?_eq_some.mp hrow
  exact hrows row (heq ▸ List.getElem_mem hlt)

theorem cellAt_processRows_of_full (bonus : Nat) (g : Grid) (y : Nat)
    (row : List Cell) (hrow : g[y]? = some row) (hfull : rowFull row = true)
    (x : Nat) (hxlen : x < row.length) :
    cellAt (processRows bonus g).1 x y = some goldEmpty := by
  unfold cellAt
  rw [getElem?_processRows, hrow, Option.map_some', Option.some_bind, if_pos hfull]
  unfold clearRow
  rw [List.getElem?_map, List.getElem?_eq_getElem hxlen]
  rfl

theorem cellAt_processRows_of_notfull (bonus : Nat) (g : Grid) (y : Nat)
    (row : List Cell) (hrow : g[y]? = some row) (hfull : rowFull row = false)
    (x : Nat) :
    cellAt (processRows bonus g).1 x y = cellAt g x y := by
  unfold cellAt
  rw [getElem?_processRows, hrow, Option.map_some', Option.some_bind,
    if_neg (by rw [hfull]; exact Bool.false_ne_true), Option.some_bind]

/-- Any row that is full on entry to `checkRowColumnBonuses` ends completely
GOLD with no runes. -/
theorem fullRow_cleared (s : GameState) (hWF : WF s = true) (y : Nat)
    (row : List Cell) (hrow : s.grid[y]? = some row) (hfull : rowFull row = true)
    (x : Nat) (hx : x < s.gridWidth) :
    cellAt (s.checkRowColumnBonuses).1.grid x y = some goldEmpty := by
  obtain ⟨hgrid, -, -, -⟩ := checkRowColumnBonuses_unfold s
  rw [hgrid]
  apply processCols_preserves_gold
  exact cellAt_processRows_of_full _ _ y row hrow hfull x
    (by rw [row_length_of_WF s hWF y row hrow]; exact hx)

/-! ### The start-of-round board -/

theorem cellAt_mkGrid (w h i j : Nat) :
    cellAt (mkGrid w h) i j = if i < w ∧ j < h then some leadEmpty else none := by
  unfold cellAt mkGrid mkRow
  rw [List.getElem?_map]
  by_cases hj : j < h
  · rw [List.getElem?_range hj, Option.map_some', Option.some_bind, List.getElem?_map]
    by_cases hi : i < w
    · rw [List.getElem?_range hi, Option.map_some', if_pos ⟨hi, hj⟩]
    · rw [List.getElem?_eq_none (by rw [List.length_range]; omega), Option.map_none',
        if_neg (by rintro ⟨h1, -⟩; exact hi h1)]
  · rw [List.getElem?_eq_none (by rw [List.length_range]; omega), Option.map_none',
      Option.none_bind, if_neg (by rintro ⟨-, h2⟩; exact hj h2)]

theorem cellAt_none_of_out_of_WF (s : GameState) (hWF : WF s = true) (i j : Nat)
    (hout : ¬(i < s.gridWidth ∧ j < s.gridHeight)) : cellAt s.grid i j = none := by
  obtain ⟨hl, hrows⟩ := WF_spec s hWF
  unfold cellAt
  cases hr : s.grid[j]? with
  | none => rfl
  | some row =>
    obtain ⟨hlt, heq⟩ := List.getElem?_eq_some.mp hr
    have hrl : row.length = s.gridWidth := hrows row (heq ▸ List.getElem_mem hlt)
    rw [Option.some_bind]
    exact List.getElem?_eq_none (by omega)

/-- Placing the starting wild on an all-LEAD board gives the start-of-round
cell layout: wild at `(4, 3)`, bare LEAD everywhere else in range. -/
theorem cellAt_placeWild (w h : Nat) (g : Grid) (hW : 4 < w) (hH : 3 < h)
    (hg : ∀ i j : Nat, cellAt g i j = if i < w ∧ j < h then some leadEmpty else none)
    (i j : Nat) :
    cellAt (setRuneAt g STARTING_RUNE_X STARTING_RUNE_Y (some STARTING_RUNE)) i j =
      if i < w ∧ j < h then
        (if i = 4 ∧ j = 3 then some ⟨.lead, some STARTING_RUNE⟩ else some leadEmpty)
      else none := by
  unfold STARTING_RUNE_X STARTING_RUNE_Y
  rw [cellAt_setRuneAt]
  by_cases hij : i = 4 ∧ j = 3
  · obtain ⟨rfl, rfl⟩ := hij
    rw [if_pos ⟨rfl, rfl⟩, hg 4 3, if_pos ⟨hW, hH⟩, if_pos ⟨hW, hH⟩, if_pos ⟨rfl, rfl⟩]
    rfl
  · rw [if_neg hij, hg i j]
    by_cases hr : i < w ∧ j < h
    · rw [if_pos hr, if_pos hr, if_neg hij]
    · rw [if_neg hr, if_neg hr]

theorem getCellG_origin (w h : Nat) (g : Grid) (hW : 4 < w) (hH : 3 < h)
    (hg : ∀ i j : Nat, cellAt g i j = if i < w ∧ j < h then some leadEmpty else none) :
    getCellG w h g (Int.ofNat STARTING_RUNE_X) (Int.ofNat STARTING_RUNE_Y)
      = some leadEmpty := by
  unfold STARTING_RUNE_X STARTING_RUNE_Y
  rw [getCellG_eq, if_pos ⟨Int.ofNat_nonneg 4, Int.ofNat_lt.mpr hW,
    Int.ofNat_nonneg 3, Int.ofNat_lt.mpr hH⟩]
  rw [show (Int.ofNat 4).toNat = 4 from rfl, show (Int.ofNat 3).toNat = 3 from rfl,
    hg 4 3, if_pos ⟨hW, hH⟩]

/-- The grid `init` builds. -/
theorem init_grid_eq (s : GameState) (fresh : Rune) (p : Bool)
    (hW : 4 < s.gridWidth) (hH : 3 < s.gridHeight) :
    (s.init fresh p).grid =
      setRuneAt (mkGrid s.gridWidth s.gridHeight) STARTING_RUNE_X STARTING_RUNE_Y
        (some STARTING_RUNE) := by
  unfold GameState.init
  dsimp only
  rw [getCellG_origin s.gridWidth s.gridHeight _ hW hH
    (fun i j => cellAt_mkGrid s.gridWidth s.gridHeight i j)]

theorem cellAt_init (s : GameState) (fresh : Rune) (p : Bool)
    (hW : 4 < s.gridWidth) (hH : 3 < s.gridHeight) (i j : Nat) :
    cellAt (s.init fresh p).grid i j =
      if i < s.gridWidth ∧ j < s.gridHeight then
        (if i = 4 ∧ j = 3 then some ⟨.lead, some STARTING_RUNE⟩ else some leadEmpty)
      else none := by
  rw [init_grid_eq s fresh p hW hH]
  exact cellAt_placeWild _ _ _ hW hH
    (fun i j => cellAt_mkGrid s.gridWidth s.gridHeight i j) i j

theorem isSome_cellAt_setCellAt (g : Grid) (x y : Nat) (c : Cell) (i j : Nat) :
    (cellAt (setCellAt g x y c) i j).isSome = (cellAt g i j).isSome := by
  rw [cellAt_setCellAt]
  split
  · next hc =>
    obtain ⟨rfl, rfl⟩ := hc
    cases cellAt g i j <;> rfl
  · rfl

/-- Effect of one inner (`x`) loop of the `startNewRound` grid reset on the
cells: every existing cell of row `y` with column in `xs` becomes bare LEAD. -/
theorem cellAt_rowLoop (y : Nat) (xs : List Nat) (g : Grid) (i j : Nat) :
    cellAt (xs.foldl (fun g2 x => setCellAt g2 x y leadEmpty) g) i j =
      if i ∈ xs ∧ j = y ∧ (cellAt g i j).isSome = true then some leadEmpty
      else cellAt g i j := by
  induction xs generalizing g with
  | nil =>
    rw [List.foldl_nil, if_neg]
    rintro ⟨hm, -, -⟩
    exact List.not_mem_nil i hm
  | cons x' rest ih =>
    rw [List.foldl_cons, ih (setCellAt g x' y leadEmpty)]
    have hps := isSome_cellAt_setCellAt g x' y leadEmpty i j
    by_cases hj : j = y
    · subst hj
      by_cases hsome : (cellAt g i j).isSome = true
      · by_cases hmem : i ∈ rest
        · rw [if_pos ⟨hmem, rfl, by rw [hps]; exact hsome⟩,
            if_pos ⟨List.mem_cons_of_mem _ hmem, rfl, hsome⟩]
        · rw [if_neg (by rintro ⟨hm, -, -⟩; exact hmem hm)]
          by_cases hix : i = x'
          · subst hix
            rw [cellAt_setCellAt, if_pos ⟨rfl, rfl⟩,
              if_pos ⟨List.mem_cons_self _ _, rfl, hsome⟩]
            obtain ⟨c, hc⟩ := Option.isSome_iff_exists.mp hsome
            rw [hc]
            rfl
          · rw [cellAt_setCellAt, if_neg (by rintro ⟨h1, -⟩; exact hix h1),
              if_neg (by rintro ⟨hm, -, -⟩; exact (List.mem_cons.mp hm).elim hix hmem)]
      · rw [if_neg (by rintro ⟨-, -, hs⟩; rw [hps] at hs; exact hsome hs),
          if_neg (by rintro ⟨-, -, hs⟩; exact hsome hs), cellAt_setCellAt]
        by_cases hix : i = x'
        · subst hix
          rw [if_pos ⟨rfl, rfl⟩]
          cases hc : cellAt g i j with
          | none => rfl
          | some c => rw [hc] at hsome; exact absurd rfl hsome
        · rw [if_neg (by rintro ⟨h1, -⟩; exact hix h1)]
    · rw [if_neg (by rintro ⟨-, h2, -⟩; exact hj h2),
        if_neg (by rintro ⟨-, h2, -⟩; exact hj h2), cellAt_setCellAt,
        if_neg (by rintro ⟨-, h2⟩; exact hj h2)]

theorem isSome_cellAt_rowLoop (y : Nat) (xs : List Nat) (g : Grid) (i j : Nat) :
    (cellAt (xs.foldl (fun g2 x => setCellAt g2 x y leadEmpty) g) i j).isSome
      = (cellAt g i j).isSome := by
  rw [cellAt_rowLoop]
  split
  · next hc => rw [hc.2.2]; rfl
  · rfl

/-- Effect of the whole `startNewRound` grid reset on the cells: every
existing cell in range turns into bare LEAD. -/
theorem cellAt_gridLoop (w : Nat) (ys : List Nat) (g : Grid) (i j : Nat) :
    cellAt (ys.foldl
        (fun g1 y => (List.range w).foldl (fun g2 x => setCellAt g2 x y leadEmpty) g1)
        g) i j =
      if i < w ∧ j ∈ ys ∧ (cellAt g i j).isSome = true then some leadEmpty
      else cellAt g i j := by
  induction ys generalizing g with
  | nil =>
    rw [List.foldl_nil, if_neg]
    rintro ⟨-, hm, -⟩
    exact List.not_mem_nil j hm
  | cons y' rest ih =>
    rw [List.foldl_cons,
      ih ((List.range w).foldl (fun g2 x => setCellAt g2 x y' leadEmpty) g)]
    have hps := isSome_cellAt_rowLoop y' (List.range w) g i j
    by_cases hiw : i < w
    · by_cases hsome : (cellAt g i j).isSome = true
      · by_cases hmem : j ∈ rest
        · rw [if_pos ⟨hiw, hmem, by rw [hps]; exact hsome⟩,
            if_pos ⟨hiw, List.mem_cons_of_mem _ hmem, hsome⟩]
        · rw [if_neg (by rintro ⟨-, hm, -⟩; exact hmem hm), cellAt_rowLoop]
          by_cases hjy : j = y'
          · subst hjy
            rw [if_pos ⟨List.mem_range.mpr hiw, rfl, hsome⟩,
              if_pos ⟨hiw, List.mem_cons_self _ _, hsome⟩]
          · rw [if_neg (by rintro ⟨-, h2, -⟩; exact hjy h2),
              if_neg (by rintro ⟨-, hm, -⟩; exact (List.mem_cons.mp hm).elim hjy hmem)]
      · rw [if_neg (by rintro ⟨-, -, hs⟩; rw [hps] at hs; exact hsome hs),
          if_neg (by rintro ⟨-, -, hs⟩; exact hsome hs), cellAt_rowLoop,
          if_neg (by rintro ⟨-, -, hs⟩; exact hsome hs)]
    · rw [if_neg (by rintro ⟨h1, -, -⟩; exact hiw h1),
        if_neg (by rintro ⟨h1, -, -⟩; exact hiw h1), cellAt_rowLoop,
        if_neg (by rintro ⟨hm, -, -⟩; exact hiw (List.mem_range.mp hm))]

/-- Under well-formedness, the `startNewRound` reset produces exactly the
all-LEAD start layout. -/
theorem cellAt_resetGridLoop_of_WF (s : GameState) (hWF : WF s = true) (i j : Nat) :
    cellAt (resetGridLoop s.gridWidth s.gridHeight s.grid) i j =
      if i < s.gridWidth ∧ j < s.gridHeight then some leadEmpty else none := by
  unfold resetGridLoop
  rw [cellAt_gridLoop]
  by_cases hr : i < s.gridWidth ∧ j < s.gridHeight
  · obtain ⟨c, hc⟩ := cellAt_isSome_of_WF s hWF i j hr.1 hr.2
    rw [if_pos ⟨hr.1, List.mem_range.mpr hr.2, by rw [hc]; rfl⟩, if_pos hr]
  · rw [if_neg ?_, if_neg hr]
    · exact cellAt_none_of_out_of_WF s hWF i j hr
    · rintro ⟨h1, hm, -⟩
      exact hr ⟨h1, List.mem_range.mp hm⟩

theorem startNewRound_grid_eq (s : GameState) (fresh : Rune) (hWF : WF s = true)
    (hW : 4 < s.gridWidth) (hH : 3 < s.gridHeight) :
    (s.startNewRound fresh).grid =
      setRuneAt (resetGridLoop s.gridWidth s.gridHeight s.grid)
        STARTING_RUNE_X STARTING_RUNE_Y (some STARTING_RUNE) := by
  unfold GameState.startNewRound
  dsimp only
  rw [getCellG_origin s.gridWidth s.gridHeight _ hW hH
    (fun i j => cellAt_resetGridLoop_of_WF s hWF i j)]

theorem cellAt_startNewRound (s : GameState) (fresh : Rune) (hWF : WF s = true)
    (hW : 4 < s.gridWidth) (hH : 3 < s.gridHeight) (i j : Nat) :
    cellAt (s.startNewRound fresh).grid i j =
      if i < s.gridWidth ∧ j < s.gridHeight then
        (if i = 4 ∧ j = 3 then some ⟨.lead, some STARTING_RUNE⟩ else some leadEmpty)
      else none := by
  rw [startNewRound_grid_eq s fresh hWF hW hH]
  exact cellAt_placeWild _ _ _ hW hH
    (fun i j => cellAt_resetGridLoop_of_WF s hWF i j) i j

/-! ### Shape (well-formedness) preservation -/

theorem map_length_modifyIdx (f : List Cell → List Cell)
    (hf : ∀ r, (f r).length = r.length) (n : Nat) (g : Grid) :
    (modifyIdx f n g).map List.length = g.map List.length := by
  induction g generalizing n with
  | nil => cases n <;> rfl
  | cons row rest ih =>
    cases n with
    | zero => simp [modifyIdx, hf]
    | succ n' => simp [modifyIdx, ih n']

theorem map_length_setRuneAt (g : Grid) (x y : Nat) (r : Option Rune) :
    (setRuneAt g x y r).map List.length = g.map List.length :=
  map_length_modifyIdx _ (fun row => modifyIdx_length _ _ row) y g

theorem map_length_setCellAt (g : Grid) (x y : Nat) (c : Cell) :
    (setCellAt g x y c).map List.length = g.map List.length :=
  map_length_modifyIdx _ (fun row => modifyIdx_length _ _ row) y g

theorem map_length_rowLoop (y : Nat) (xs : List Nat) (g : Grid) :
    ((xs.foldl (fun g2 x => setCellAt g2 x y leadEmpty) g).map List.length)
      = g.map List.length := by
  induction xs generalizing g with
  | nil => rfl
  | cons x' rest ih =>
    rw [List.foldl_cons, ih (setCellAt g x' y leadEmpty), map_length_setCellAt]

theorem map_length_resetGridLoop (w h : Nat) (g : Grid) :
    (resetGridLoop w h g).map List.length = g.map List.length := by
  unfold resetGridLoop
  generalize List.range h = ys
  induction ys generalizing g with
  | nil => rfl
  | cons y' rest ih =>
    rw [List.foldl_cons, ih, map_length_rowLoop]

theorem WF_iff_shape (s : GameState) :
    WF s = true ↔
      s.grid.map List.length = List.replicate s.gridHeight s.gridWidth := by
  unfold WF
  rw [Bool.and_eq_true, beq_iff_eq, List.all_eq_true]
  constructor
  · rintro ⟨hlen, hrows⟩
    refine List.ext_getElem? ?_
    intro n
    rw [List.getElem?_map, List.getElem?_replicate]
    by_cases hn : n < s.gridHeight
    · obtain ⟨row, hrow⟩ : ∃ row, s.grid[n]? = some row := by
        have : n < s.grid.length := by omega
        exact ⟨s.grid[n], List.getElem?_eq_getElem this⟩
      rw [hrow, Option.map_some', if_pos hn]
      obtain ⟨hlt, heq⟩ := List.getElem?_eq_some.mp hrow
      have := hrows row (heq ▸ List.getElem_mem hlt)
      rw [beq_iff_eq] at this
      rw [this]
    · rw [if_neg hn, List.getElem?_eq_none (by omega), Option.map_none']
  · intro hshape
    have hlen : s.grid.length = s.gridHeight := by
      have := congrArg List.length hshape
      rw [List.length_map, List.length_replicate] at this
      exact this
    refine ⟨hlen, ?_⟩
    intro row hrow
    rw [beq_iff_eq]
    obtain ⟨n, hn, heq⟩ := List.getElem_of_mem hrow
    have h1 : (s.grid.map List.length)[n]? = some row.length := by
      rw [List.getElem?_map, List.getElem?_eq_getElem hn, Option.map_some', heq]
    rw [hshape, List.getElem?_replicate, if_pos (by omega)] at h1
    exact (Option.some_inj.mp h1).symm

theorem shape_mkGrid (w h : Nat) :
    (mkGrid w h).map List.length = List.replicate h w := by
  unfold mkGrid
  rw [List.map_map]
  have : (List.length ∘ fun _ => mkRow w) = fun (_ : Nat) => w := by
    funext z
    simp [mkRow]
  rw [this, List.map_const', List.length_range]

theorem WF_init_state (s : GameState) (fresh : Rune) (p : Bool)
    (hW : 4 < s.gridWidth) (hH : 3 < s.gridHeight) :
    WF (s.init fresh p) = true := by
  rw [WF_iff_shape]
  show (s.init fresh p).grid.map List.length = List.replicate s.gridHeight s.gridWidth
  rw [init_grid_eq s fresh p hW hH, map_length_setRuneAt, shape_mkGrid]

theorem WF_startNewRound_state (s : GameState) (fresh : Rune) (hWF : WF s = true)
    (hW : 4 < s.gridWidth) (hH : 3 < s.gridHeight) :
    WF (s.startNewRound fresh) = true := by
  rw [WF_iff_shape]
  show (s.startNewRound fresh).grid.map List.length
    = List.replicate s.gridHeight s.gridWidth
  rw [startNewRound_grid_eq s fresh hWF hW hH, map_length_setRuneAt,
    map_length_resetGridLoop]
  exact (WF_iff_shape s).mp hWF

/-- On a start-of-round board (wild at `(4, 3)`, bare LEAD elsewhere), with a
non-skull pending rune: the wild is the only rune, and a placement is legal
exactly at the existing orthogonal neighbours of `(4, 3)`. -/
theorem start_position_spec (t : GameState) (cur : Rune)
    (hW : 4 < t.gridWidth) (hH : 3 < t.gridHeight) (hWFt : WF t = true)
    (hcell : ∀ i j : Nat, cellAt t.grid i j =
      if i < t.gridWidth ∧ j < t.gridHeight then
        (if i = 4 ∧ j = 3 then some ⟨.lead, some STARTING_RUNE⟩ else some leadEmpty)
      else none)
    (hcur : t.currentRune = some cur) (hsk : cur.isSkull = false) :
    cellAt t.grid 4 3 = some ⟨.lead, some STARTING_RUNE⟩ ∧
    (∀ i j : Nat, ¬(i = 4 ∧ j = 3) → ∀ c, cellAt t.grid i j = some c → c.rune = none) ∧
    (∀ x y : Int, t.canPlaceAt x y = true ↔
       ((x = 3 ∧ y = 3) ∨ (x = 5 ∧ y = 3 ∧ (5 : Int) < (t.gridWidth : Int)) ∨
        (x = 4 ∧ y = 2) ∨ (x = 4 ∧ y = 4 ∧ (4 : Int) < (t.gridHeight : Int)))) := by
  have hwild : cellAt t.grid 4 3 = some ⟨.lead, some STARTING_RUNE⟩ := by
    rw [hcell 4 3, if_pos ⟨hW, hH⟩, if_pos ⟨rfl, rfl⟩]
  have hothers : ∀ i j : Nat, ¬(i = 4 ∧ j = 3) →
      ∀ c, cellAt t.grid i j = some c → c.rune = none := by
    intro i j hij c hc
    rw [hcell i j] at hc
    by_cases hr : i < t.gridWidth ∧ j < t.gridHeight
    · rw [if_pos hr, if_neg hij] at hc
      cases hc
      rfl
    · rw [if_neg hr] at hc
      exact Option.noConfusion hc
  have hmem_char : ∀ (x y : Int) (c : Cell),
      c ∈ (t.getAdjacentCells x y).filter (fun c => c.rune.isSome) →
      c = ⟨.lead, some STARTING_RUNE⟩ ∧
      ((x = 3 ∧ y = 3) ∨ (x = 5 ∧ y = 3) ∨ (x = 4 ∧ y = 2) ∨ (x = 4 ∧ y = 4)) := by
    intro x y c hcmem
    rw [List.mem_filter] at hcmem
    obtain ⟨hcadj, hcsome⟩ := hcmem
    unfold GameState.getAdjacentCells at hcadj
    rw [List.mem_filterMap] at hcadj
    obtain ⟨d, hd, hget⟩ := hcadj
    have hb' := getCell_bounds t _ _ _ hget
    rw [getCell_eq_cellAt t _ _ hb'] at hget
    rw [hcell] at hget
    obtain ⟨hd0, hd1, hd2, hd3⟩ := hb'
    rw [if_pos ⟨by omega, by omega⟩] at hget
    by_cases h43 : (x + d.1).toNat = 4 ∧ (y + d.2).toNat = 3
    · rw [if_pos h43] at hget
      cases hget
      refine ⟨rfl, ?_⟩
      obtain ⟨h4, h3⟩ := h43
      simp only [List.mem_cons, List.not_mem_nil, or_false] at hd
      rcases hd with rfl | rfl | rfl | rfl <;> dsimp only at h4 h3 hd0 hd1 hd2 hd3
      · exact Or.inr (Or.inl ⟨by omega, by omega⟩)
      · exact Or.inl ⟨by omega, by omega⟩
      · exact Or.inr (Or.inr (Or.inr ⟨by omega, by omega⟩))
      · exact Or.inr (Or.inr (Or.inl ⟨by omega, by omega⟩))
    · rw [if_neg h43] at hget
      cases hget
      exact Bool.noConfusion hcsome
  have hshare : ∀ c : Cell, c = (⟨.lead, some STARTING_RUNE⟩ : Cell) →
      sharesProperty (some cur) c.rune = true := by
    rintro c rfl
    rfl
  have hget43 : t.getCell 4 3 = some ⟨.lead, some STARTING_RUNE⟩ := by
    rw [getCell_eq_cellAt t 4 3 ⟨by omega, by omega, by omega, by omega⟩]
    exact hwild
  refine ⟨hwild, hothers, ?_⟩
  intro x y
  rw [canPlaceAt_char t hWFt x y]
  constructor
  · rintro ⟨hb, -, cur', -, -, hdisj⟩
    rcases hdisj with ⟨-, hempty⟩ | ⟨hne, -⟩
    · have := hempty 3 4 hH hW _ hwild
      simp at this
    · obtain ⟨c, hcmem'⟩ := List.exists_mem_of_ne_nil _ hne
      obtain ⟨-, hpos⟩ := hmem_char x y c hcmem'
      obtain ⟨hx0, hxw, hy0, hyh⟩ := hb
      rcases hpos with ⟨hx, hy⟩ | ⟨hx, hy⟩ | ⟨hx, hy⟩ | ⟨hx, hy⟩
      · exact Or.inl ⟨hx, hy⟩
      · exact Or.inr (Or.inl ⟨hx, hy, by omega⟩)
      · exact Or.inr (Or.inr (Or.inl ⟨hx, hy⟩))
      · exact Or.inr (Or.inr (Or.inr ⟨hx, hy, by omega⟩))
  · rintro (⟨rfl, rfl⟩ | ⟨rfl, rfl, h5w⟩ | ⟨rfl, rfl⟩ | ⟨rfl, rfl, h4h⟩)
    · have hbnd : 0 ≤ (3 : Int) ∧ (3 : Int) < (t.gridWidth : Int) ∧
          0 ≤ (3 : Int) ∧ (3 : Int) < (t.gridHeight : Int) :=
        ⟨by omega, by omega, by omega, by omega⟩
      have hmemw : (⟨.lead, some STARTING_RUNE⟩ : Cell) ∈
          (t.getAdjacentCells 3 3).filter (fun c => c.rune.isSome) := by
        rw [List.mem_filter]
        refine ⟨?_, rfl⟩
        unfold GameState.getAdjacentCells
        rw [List.mem_filterMap]
        exact ⟨(1, 0), by decide, hget43⟩
      refine ⟨hbnd, ?_, cur, hcur, hsk,
        Or.inr ⟨List.ne_nil_of_mem hmemw, ?_⟩⟩
      · intro c hc
        rw [getCell_eq_cellAt t 3 3 hbnd] at hc
        exact hothers 3 3 (by omega) c hc
      · intro c hc
        exact hshare c (hmem_char 3 3 c hc).1
    · have hbnd : 0 ≤ (5 : Int) ∧ (5 : Int) < (t.gridWidth : Int) ∧
          0 ≤ (3 : Int) ∧ (3 : Int) < (t.gridHeight : Int) :=
        ⟨by omega, by omega, by omega, by omega⟩
      have hmemw : (⟨.lead, some STARTING_RUNE⟩ : Cell) ∈
          (t.getAdjacentCells 5 3).filter (fun c => c.rune.isSome) := by
        rw [List.mem_filter]
        refine ⟨?_, rfl⟩
        unfold GameState.getAdjacentCells
        rw [List.mem_filterMap]
        refine ⟨(-1, 0), by decide, ?_⟩
        norm_num
        exact hget43
      refine ⟨hbnd, ?_, cur, hcur, hsk,
        Or.inr ⟨List.ne_nil_of_mem hmemw, ?_⟩⟩
      · intro c hc
        rw [getCell_eq_cellAt t 5 3 hbnd] at hc
        exact hothers 5 3 (by omega) c hc
      · intro c hc
        exact hshare c (hmem_char 5 3 c hc).1
    · have hbnd : 0 ≤ (4 : Int) ∧ (4 : Int) < (t.gridWidth : Int) ∧
          0 ≤ (2 : Int) ∧ (2 : Int) < (t.gridHeight : Int) :=
        ⟨by omega, by omega, by omega, by omega⟩
      have hmemw : (⟨.lead, some STARTING_RUNE⟩ : Cell) ∈
          (t.getAdjacentCells 4 2).filter (fun c => c.rune.isSome) := by
        rw [List.mem_filter]
        refine ⟨?_, rfl⟩
        unfold GameState.getAdjacentCells
        rw [List.mem_filterMap]
        exact ⟨(0, 1), by decide, hget43⟩
      refine ⟨hbnd, ?_, cur, hcur, hsk,
        Or.inr ⟨List.ne_nil_of_mem hmemw, ?_⟩⟩
      · intro c hc
        rw [getCell_eq_cellAt t 4 2 hbnd] at hc
        exact hothers 4 2 (by omega) c hc
      · intro c hc
        exact hshare c (hmem_char 4 2 c hc).1
    · have hbnd : 0 ≤ (4 : Int) ∧ (4 : Int) < (t.gridWidth : Int) ∧
          0 ≤ (4 : Int) ∧ (4 : Int) < (t.gridHeight : Int) :=
        ⟨by omega, by omega, by omega, by omega⟩
      have hmemw : (⟨.lead, some STARTING_RUNE⟩ : Cell) ∈
          (t.getAdjacentCells 4 4).filter (fun c => c.rune.isSome) := by
        rw [List.mem_filter]
        refine ⟨?_, rfl⟩
        unfold GameState.getAdjacentCells
        rw [List.mem_filterMap]
        refine ⟨(0, -1), by decide, ?_⟩
        norm_num
        exact hget43
      refine ⟨hbnd, ?_, cur, hcur, hsk,
        Or.inr ⟨List.ne_nil_of_mem hmemw, ?_⟩⟩
      · intro c hc
        rw [getCell_eq_cellAt t 4 4 hbnd] at hc
        exact hothers 4 4 (by omega) c hc
      · intro c hc
        exact hshare c (hmem_char 4 4 c hc).1

/-! ### C9 -/

/-- C9: immediately after `init` or after `startNewRound`, when the grid
contains `(4, 3)`, the board holds exactly one rune — the starting wild at
`(4, 3)` (every other existing cell is rune-free) — and, the fresh pending
rune not being a skull, `canPlaceAt` is true exactly at the orthogonal
neighbours of `(4, 3)` that exist on the grid. -/
theorem C9_start_board (s : GameState) (fresh : Rune) (p : Bool)
    (hW : 4 < s.gridWidth) (hH : 3 < s.gridHeight) (hsk : fresh.isSkull = false)
    (hWF : WF s = true) :
    (cellAt (s.init fresh p).grid 4 3 = some ⟨.lead, some STARTING_RUNE⟩ ∧
     (∀ i j : Nat, ¬(i = 4 ∧ j = 3) →
        ∀ c, cellAt (s.init fresh p).grid i j = some c → c.rune = none) ∧
     (∀ x y : Int, (s.init fresh p).canPlaceAt x y = true ↔
        ((x = 3 ∧ y = 3) ∨ (x = 5 ∧ y = 3 ∧ (5 : Int) < (s.gridWidth : Int)) ∨
         (x = 4 ∧ y = 2) ∨ (x = 4 ∧ y = 4 ∧ (4 : Int) < (s.gridHeight : Int))))) ∧
    (cellAt (s.startNewRound fresh).grid 4 3 = some ⟨.lead, some STARTING_RUNE⟩ ∧
     (∀ i j : Nat, ¬(i = 4 ∧ j = 3) →
        ∀ c, cellAt (s.startNewRound fresh).grid i j = some c → c.rune = none) ∧
     (∀ x y : Int, (s.startNewRound fresh).canPlaceAt x y = true ↔
        ((x = 3 ∧ y = 3) ∨ (x = 5 ∧ y = 3 ∧ (5 : Int) < (s.gridWidth : Int)) ∨
         (x = 4 ∧ y = 2) ∨ (x = 4 ∧ y = 4 ∧ (4 : Int) < (s.gridHeight : Int))))) := by
  constructor
  · exact start_position_spec (s.init fresh p) fresh hW hH
      (WF_init_state s fresh p hW hH)
      (fun i j => cellAt_init s fresh p hW hH i j) rfl hsk
  · exact start_position_spec (s.startNewRound fresh) fresh hW hH
      (WF_startNewRound_state s fresh hWF hW hH)
      (fun i j => cellAt_startNewRound s fresh hWF hW hH i j) rfl hsk

/-- C9 witness: the start-board statement evaluated on the default-built
8×8 engine with a non-skull fresh rune. -/
theorem C9_witness :
    (cellAt ((GameState.new {} crimsonAries).init crimsonAries false).grid 4 3
        = some ⟨.lead, some STARTING_RUNE⟩ ∧
     (∀ i j : Nat, ¬(i = 4 ∧ j = 3) →
        ∀ c, cellAt ((GameState.new {} crimsonAries).init crimsonAries false).grid i j
          = some c → c.rune = none) ∧
     (∀ x y : Int,
        ((GameState.new {} crimsonAries).init crimsonAries false).canPlaceAt x y = true ↔
        ((x = 3 ∧ y = 3) ∨
         (x = 5 ∧ y = 3 ∧ (5 : Int) < ((GameState.new {} crimsonAries).gridWidth : Int)) ∨
         (x = 4 ∧ y = 2) ∨
         (x = 4 ∧ y = 4 ∧ (4 : Int) < ((GameState.new {} crimsonAries).gridHeight : Int))))) ∧
    (cellAt ((GameState.new {} crimsonAries).startNewRound crimsonAries).grid 4 3
        = some ⟨.lead, some STARTING_RUNE⟩ ∧
     (∀ i j : Nat, ¬(i = 4 ∧ j = 3) →
        ∀ c, cellAt ((GameState.new {} crimsonAries).startNewRound crimsonAries).grid i j
          = some c → c.rune = none) ∧
     (∀ x y : Int,
        ((GameState.new {} crimsonAries).startNewRound crimsonAries).canPlaceAt x y = true ↔
        ((x = 3 ∧ y = 3) ∨
         (x = 5 ∧ y = 3 ∧ (5 : Int) < ((GameState.new {} crimsonAries).gridWidth : Int)) ∨
         (x = 4 ∧ y = 2) ∨
         (x = 4 ∧ y = 4 ∧ (4 : Int) < ((GameState.new {} crimsonAries).gridHeight : Int))))) :=
  C9_start_board (GameState.new {} crimsonAries) crimsonAries false
    (by decide) (by decide) (by decide) (by decide)

/-! ### C2 (amended) -/

/-- C2 (amended): when a full row and a full column coexist before
resolution, the row pass clears the row first; the column — which meets
that row at `(x, y)` — is then no longer full when the column pass runs, so
it is not cleared: every cell of the row ends GOLD with no rune, while a
cell of the column lying in a row that was not full keeps exactly its prior
state and rune. -/
theorem C2_row_clear_starves_column (s : GameState) (hWF : WF s = true)
    (x y : Nat) (hx : x < s.gridWidth) (hy : y < s.gridHeight)
    (row : List Cell) (hrow : s.grid[y]? = some row) (hfull : rowFull row = true)
    (hcol : colFull s.gridHeight s.grid x = true)
    (y₂ : Nat) (hy₂ : y₂ < s.gridHeight) (hne : y₂ ≠ y)
    (row₂ : List Cell) (hrow₂ : s.grid[y₂]? = some row₂)
    (hfull₂ : rowFull row₂ = false) :
    (∀ i : Nat, i < s.gridWidth →
       cellAt (s.checkRowColumnBonuses).1.grid i y = some goldEmpty) ∧
    colFull s.gridHeight (processRows (getRowClearPoints s.board) s.grid).1 x = false ∧
    cellAt (s.checkRowColumnBonuses).1.grid x y₂ = cellAt s.grid x y₂ := by
  have hprfull : cellAt (processRows (getRowClearPoints s.board) s.grid).1 x y
      = some goldEmpty :=
    cellAt_processRows_of_full _ _ y row hrow hfull x
      (by rw [row_length_of_WF s hWF y row hrow]; exact hx)
  have hnone : ∀ c, cellAt (processRows (getRowClearPoints s.board) s.grid).1 x y
      = some c → c.rune = none := by
    intro c hc
    rw [hprfull] at hc
    cases hc
    rfl
  obtain ⟨hgrid, -, -, -⟩ := checkRowColumnBonuses_unfold s
  refine ⟨fun i hi => fullRow_cleared s hWF y row hrow hfull i hi, ?_, ?_⟩
  · exact colFull_eq_false_of_none s.gridHeight _ x y hy hnone
  · rw [hgrid]
    rw [cellAt_processCols_of_nonfull _ s.gridHeight _ _ x y hy hnone y₂]
    exact cellAt_processRows_of_notfull _ _ y₂ row₂ hrow₂ hfull₂ x

/-- C2 (amended) witness: the amended statement evaluated on `c2State`
(row 0 full, column 0 full, row 1 not full). -/
theorem C2_amended_witness :
    (∀ i : Nat, i < c2State.gridWidth →
       cellAt (c2State.checkRowColumnBonuses).1.grid i 0 = some goldEmpty) ∧
    colFull c2State.gridHeight
      (processRows (getRowClearPoints c2State.board) c2State.grid).1 0 = false ∧
    cellAt (c2State.checkRowColumnBonuses).1.grid 0 1 = cellAt c2State.grid 0 1 :=
  C2_row_clear_starves_column c2State (by decide) 0 0 (by decide) (by decide)
    [⟨.lead, some crimsonAries⟩, ⟨.lead, some crimsonAries⟩] (by decide) (by decide)
    (by decide) 1 (by decide) (by decide)
    [⟨.lead, some crimsonAries⟩, ⟨.lead, none⟩] (by decide) (by decide)

/-! ### C5 -/

/-- C5: any line found full is wholly converted to GOLD with its runes
removed (rows are "found" against the entry grid, columns against the grid
left by the row pass); the score grows by `getRowClearPoints(board)` for
each found line; and if anything cleared, the forge ends completely empty
regardless of its prior contents. -/
theorem C5_line_clear_effects (s : GameState) (hWF : WF s = true) :
    (∀ y row, s.grid[y]? = some row → rowFull row = true →
       ∀ x : Nat, x < s.gridWidth →
         cellAt (s.checkRowColumnBonuses).1.grid x y = some goldEmpty) ∧
    (∀ x : Nat, x < s.gridWidth →
       colFull s.gridHeight (processRows (getRowClearPoints s.board) s.grid).1 x = true →
       ∀ y : Nat, y < s.gridHeight →
         cellAt (s.checkRowColumnBonuses).1.grid x y = some goldEmpty) ∧
    (s.checkRowColumnBonuses).1.score =
      s.score + getRowClearPoints s.board * (s.grid.countP rowFull)
              + getRowClearPoints s.board *
                ((List.range s.gridWidth).countP
                  (fun x => colFull s.gridHeight
                     (processRows (getRowClearPoints s.board) s.grid).1 x)) ∧
    ((s.checkRowColumnBonuses).2 = true → (s.checkRowColumnBonuses).1.forge = []) := by
  obtain ⟨hgrid, hscore, -, hforge⟩ := checkRowColumnBonuses_unfold s
  refine ⟨?_, ?_, ?_, hforge⟩
  · intro y row hrow hfull x hx
    exact fullRow_cleared s hWF y row hrow hfull x hx
  · intro x hx hcol y hy
    rw [hgrid]
    exact processCols_clears_full _ _ _ _ x (List.mem_range.mpr hx) hcol y hy
  · rw [hscore, processRows_pts,
      (processCols_pts_any _ _ _ _ (List.nodup_range _)).1]

/-- C5 witness: the statement evaluated on `c2State`. -/
theorem C5_witness :
    (∀ y row, c2State.grid[y]? = some row → rowFull row = true →
       ∀ x : Nat, x < c2State.gridWidth →
         cellAt (c2State.checkRowColumnBonuses).1.grid x y = some goldEmpty) ∧
    (∀ x : Nat, x < c2State.gridWidth →
       colFull c2State.gridHeight
         (processRows (getRowClearPoints c2State.board) c2State.grid).1 x = true →
       ∀ y : Nat, y < c2State.gridHeight →
         cellAt (c2State.checkRowColumnBonuses).1.grid x y = some goldEmpty) ∧
    (c2State.checkRowColumnBonuses).1.score =
      c2State.score + getRowClearPoints c2State.board * (c2State.grid.countP rowFull)
              + getRowClearPoints c2State.board *
                ((List.range c2State.gridWidth).countP
                  (fun x => colFull c2State.gridHeight
                     (processRows (getRowClearPoints c2State.board) c2State.grid).1 x)) ∧
    ((c2State.checkRowColumnBonuses).2 = true →
      (c2State.checkRowColumnBonuses).1.forge = []) :=
  C5_line_clear_effects c2State (by decide)

/-! ### C3 -/

/-- C3: for well-formed grids, `canPlaceAt(x, y)` is true iff the cell is in
bounds and holds no rune, a current rune exists and is not a skull, and
either there is no rune-holding orthogonal neighbour and the entire board
holds zero runes, or there is at least one rune-holding orthogonal
neighbour and the current rune shares a property (`sharesProperty`, which
makes wild match in both directions) with every one of them. -/
theorem C3_canPlaceAt_iff (s : GameState) (hWF : WF s = true) (x y : Int) :
    s.canPlaceAt x y = true ↔
      ((0 ≤ x ∧ x < (s.gridWidth : Int) ∧ 0 ≤ y ∧ y < (s.gridHeight : Int)) ∧
       (∀ c, s.getCell x y = some c → c.rune = none) ∧
       ∃ cur, s.currentRune = some cur ∧ cur.isSkull = false ∧
         (((s.getAdjacentCells x y).filter (fun c => c.rune.isSome) = [] ∧
            (∀ j i : Nat, j < s.gridHeight → i < s.gridWidth →
              ∀ c, cellAt s.grid i j = some c → c.rune = none)) ∨
          ((s.getAdjacentCells x y).filter (fun c => c.rune.isSome) ≠ [] ∧
            ∀ c ∈ (s.getAdjacentCells x y).filter (fun c => c.rune.isSome),
              sharesProperty (some cur) c.rune = true))) :=
  canPlaceAt_char s hWF x y

/-- C3 witness: the characterization evaluated on the concrete state
`c2State` at `(1, 1)`. -/
theorem C3_witness :
    c2State.canPlaceAt 1 1 = true ↔
      ((0 ≤ (1 : Int) ∧ (1 : Int) < (c2State.gridWidth : Int) ∧ 0 ≤ (1 : Int) ∧
        (1 : Int) < (c2State.gridHeight : Int)) ∧
       (∀ c, c2State.getCell 1 1 = some c → c.rune = none) ∧
       ∃ cur, c2State.currentRune = some cur ∧ cur.isSkull = false ∧
         (((c2State.getAdjacentCells 1 1).filter (fun c => c.rune.isSome) = [] ∧
            (∀ j i : Nat, j < c2State.gridHeight → i < c2State.gridWidth →
              ∀ c, cellAt c2State.grid i j = some c → c.rune = none)) ∨
          ((c2State.getAdjacentCells 1 1).filter (fun c => c.rune.isSome) ≠ [] ∧
            ∀ c ∈ (c2State.getAdjacentCells 1 1).filter (fun c => c.rune.isSome),
              sharesProperty (some cur) c.rune = true))) :=
  C3_canPlaceAt_iff c2State (by decide) 1 1

/-! ### C4 -/

theorem canPlaceAt_eq_false_of_noRune (s : GameState) (h : s.currentRune = none)
    (x y : Int) : s.canPlaceAt x y = false := by
  unfold GameState.canPlaceAt
  rw [h]
  cases s.getCell x y <;> rfl

theorem canPlaceAt_eq_false_of_skull (s : GameState) (cur : Rune)
    (hcur : s.currentRune = some cur) (hsk : cur.isSkull = true) (x y : Int) :
    s.canPlaceAt x y = false := by
  unfold GameState.canPlaceAt
  rw [hcur]
  cases s.getCell x y with
  | none => rfl
  | some cell =>
    dsimp only
    rw [if_pos hsk]

theorem canSkullRemoveAt_eq_false_of_noRune (s : GameState) (h : s.currentRune = none)
    (x y : Int) : s.canSkullRemoveAt x y = false := by
  unfold GameState.canSkullRemoveAt
  rw [h]

theorem canSkullRemoveAt_eq_false_of_nonskull (s : GameState) (cur : Rune)
    (hcur : s.currentRune = some cur) (hsk : cur.isSkull = false) (x y : Int) :
    s.canSkullRemoveAt x y = false := by
  unfold GameState.canSkullRemoveAt
  rw [hcur]
  dsimp only
  rw [if_pos (by rw [hsk]; rfl)]

theorem any2_eq_true (w h : Nat) (p : Nat → Nat → Bool) :
    ((List.range h).any (fun y => (List.range w).any (fun x => p x y))) = true ↔
    ∃ i j : Nat, i < w ∧ j < h ∧ p i j = true := by
  rw [List.any_eq_true]
  constructor
  · rintro ⟨j, hj, hin⟩
    rw [List.any_eq_true] at hin
    obtain ⟨i, hi, hp⟩ := hin
    exact ⟨i, j, List.mem_range.mp hi, List.mem_range.mp hj, hp⟩
  · rintro ⟨i, j, hi, hj, hp⟩
    refine ⟨j, List.mem_range.mpr hj, ?_⟩
    rw [List.any_eq_true]
    exact ⟨i, List.mem_range.mpr hi, hp⟩

theorem any2_eq_false (w h : Nat) (p : Nat → Nat → Bool) :
    ((List.range h).any (fun y => (List.range w).any (fun x => p x y))) = false ↔
    ∀ i j : Nat, i < w → j < h → p i j = false := by
  constructor
  · intro h0 i j hi hj
    cases hp : p i j with
    | false => rfl
    | true =>
      have := (any2_eq_true w h p).mpr ⟨i, j, hi, hj, hp⟩
      rw [h0] at this
      exact Bool.noConfusion this
  · intro hall
    cases hres : ((List.range h).any (fun y => (List.range w).any (fun x => p x y))) with
    | false => rfl
    | true =>
      obtain ⟨i, j, hi, hj, hp⟩ := (any2_eq_true w h p).mp hres
      rw [hall i j hi hj] at hp
      exact Bool.noConfusion hp

/-- `hasValidPlacement() = false` says exactly: no in-range cell admits the
current rune's action — neither a skull removal nor a placement. -/
theorem hasValidPlacement_eq_false_iff (s : GameState) :
    s.hasValidPlacement = false ↔
      (∀ i j : Nat, i < s.gridWidth → j < s.gridHeight →
        s.canSkullRemoveAt (Int.ofNat i) (Int.ofNat j) = false ∧
        s.canPlaceAt (Int.ofNat i) (Int.ofNat j) = false) := by
  unfold GameState.hasValidPlacement
  cases hcur : s.currentRune with
  | none =>
    refine iff_of_true rfl ?_
    intro i j hi hj
    exact ⟨canSkullRemoveAt_eq_false_of_noRune s hcur _ _,
           canPlaceAt_eq_false_of_noRune s hcur _ _⟩
  | some cur =>
    dsimp only
    cases hsk : cur.isSkull with
    | true =>
      rw [if_pos rfl, any2_eq_false]
      constructor
      · intro hall i j hi hj
        exact ⟨hall i j hi hj, canPlaceAt_eq_false_of_skull s cur hcur hsk _ _⟩
      · intro hall i j hi hj
        exact (hall i j hi hj).1
    | false =>
      rw [if_neg Bool.false_ne_true, any2_eq_false]
      constructor
      · intro hall i j hi hj
        exact ⟨canSkullRemoveAt_eq_false_of_nonskull s cur hcur hsk _ _, hall i j hi hj⟩
      · intro hall i j hi hj
        exact (hall i j hi hj).2

/-- C4: under the forge invariant, `isGameOver()` is true iff the forge is
exactly at capacity and no in-range cell admits the current rune's action
(no skull removal and no placement anywhere); so a full forge alone, or an
actionless rune alone, never makes it true. -/
theorem C4_isGameOver_iff (s : GameState) (hcap : s.forge.length ≤ s.forgeCapacity) :
    s.isGameOver = true ↔
      (s.forge.length = s.forgeCapacity ∧
       ∀ i j : Nat, i < s.gridWidth → j < s.gridHeight →
         s.canSkullRemoveAt (Int.ofNat i) (Int.ofNat j) = false ∧
         s.canPlaceAt (Int.ofNat i) (Int.ofNat j) = false) := by
  unfold GameState.isGameOver GameState.isForgeFull
  rw [Bool.and_eq_true, Bool.not_eq_true']
  constructor
  · rintro ⟨hfull, hnone⟩
    refine ⟨?_, (hasValidPlacement_eq_false_iff s).mp hnone⟩
    rw [decide_eq_true_eq] at hfull
    omega
  · rintro ⟨heq, hall⟩
    exact ⟨by rw [decide_eq_true_eq]; omega, (hasValidPlacement_eq_false_iff s).mpr hall⟩

/-- A 1×1 board whose only cell is occupied by the starting wild, with a
zero-capacity forge: the forge is trivially at capacity and nothing can be
placed, so the game is over. -/
def c4State : GameState :=
  { gridWidth := 1, gridHeight := 1, forgeCapacity := 0, skillLevel := 1, startBoard := 1,
    grid := [[⟨.lead, some STARTING_RUNE⟩]],
    currentRune := some crimsonAries, forge := [], score := 0, board := 1,
    selectedCell := none, placementStreak := 0, maxPlacementStreak := 0, boardsCleared := 0 }

/-- C4 witness: the game-over characterization evaluated on `c4State`. -/
theorem C4_witness :
    c4State.isGameOver = true ↔
      (c4State.forge.length = c4State.forgeCapacity ∧
       ∀ i j : Nat, i < c4State.gridWidth → j < c4State.gridHeight →
         c4State.canSkullRemoveAt (Int.ofNat i) (Int.ofNat j) = false ∧
         c4State.canPlaceAt (Int.ofNat i) (Int.ofNat j) = false) :=
  C4_isGameOver_iff c4State (by decide)

/-! ### C7 -/

/-- C7: every invalid action is a value-level failure with zero state
mutation (so repeating it is safe and still invalid): an invalid placement
returns `{placed := false, rowColumnCleared := false}` on the unchanged
state; a discard with no current rune or a full forge returns `false` on the
unchanged state; a skull use whose current rune is not a skull, or whose
target holds no non-wild rune, returns `false` on the unchanged state. -/
theorem C7_invalid_actions_are_noops (s : GameState) (fresh : Rune) (x y : Int) :
    (s.canPlaceAt x y = false →
      s.placeRune fresh x y = (s, { placed := false, rowColumnCleared := false })) ∧
    (s.currentRune = none ∨ s.forge.length ≥ s.forgeCapacity →
      s.discardToForge fresh = (s, false)) ∧
    ((∀ cur, s.currentRune = some cur → cur.isSkull = false) ∨
     (∀ c, s.getCell x y = some c → ∀ r, c.rune = some r → r.isWild = true) →
      s.useSkullToRemove fresh x y = (s, false)) := by
  refine ⟨?_, ?_, ?_⟩
  · intro h
    unfold GameState.placeRune
    rw [h]
    rfl
  · intro h
    unfold GameState.discardToForge
    cases hcur : s.currentRune with
    | none => rfl
    | some cur =>
      dsimp only
      rcases h with h | h
      · rw [hcur] at h; cases h
      · rw [if_pos h]
  · intro h
    unfold GameState.useSkullToRemove
    cases hcur : s.currentRune with
    | none => rfl
    | some cur =>
      dsimp only
      rcases h with h | h
      · rw [if_pos (by simp [h cur hcur])]
      · by_cases hsk : cur.isSkull
        · rw [if_neg (by simp [hsk])]
          cases hc : s.getCell x y with
          | none => rfl
          | some cell =>
            dsimp only
            cases hr : cell.rune with
            | none => rfl
            | some r =>
              dsimp only
              rw [if_pos (h cell hc r hr)]
        · rw [if_pos (by simp [hsk])]

/-- C7 witness: on a state with no current rune, all three invalid actions
are no-ops. -/
theorem C7_witness :
    ({ c1State with currentRune := none }.placeRune crimsonAries 0 0
       = ({ c1State with currentRune := none }, { placed := false, rowColumnCleared := false })) ∧
    ({ c1State with currentRune := none }.discardToForge crimsonAries
       = ({ c1State with currentRune := none }, false)) ∧
    ({ c1State with currentRune := none }.useSkullToRemove crimsonAries 0 0
       = ({ c1State with currentRune := none }, false)) := by
  have h := C7_invalid_actions_are_noops { c1State with currentRune := none } crimsonAries 0 0
  exact ⟨h.1 (by decide), h.2.1 (Or.inl rfl),
    h.2.2 (Or.inl (fun cur hc => by cases hc))⟩

/-! ### C6 -/

/-- C6: all public operations preserve the forge-capacity invariant
`forge.length ≤ forgeCapacity` (the lower bound `0 ≤ forge.length` is
inherent in `Nat`); a discard at capacity fails and changes nothing; a
placement or skull use started with an empty forge ends with an empty forge
(the pop is a no-op). -/
theorem C6_forge_invariant (s : GameState) (fresh : Rune) (x y : Int) (p : Bool)
    (hcap : s.forge.length ≤ s.forgeCapacity) :
    (s.placeRune fresh x y).1.forge.length ≤ (s.placeRune fresh x y).1.forgeCapacity ∧
    (s.discardToForge fresh).1.forge.length ≤ (s.discardToForge fresh).1.forgeCapacity ∧
    (s.useSkullToRemove fresh x y).1.forge.length ≤ (s.useSkullToRemove fresh x y).1.forgeCapacity ∧
    (s.startNewRound fresh).forge.length ≤ (s.startNewRound fresh).forgeCapacity ∧
    (s.init fresh p).forge.length ≤ (s.init fresh p).forgeCapacity ∧
    (s.forge.length = s.forgeCapacity → s.discardToForge fresh = (s, false)) ∧
    (s.forge = [] → (s.placeRune fresh x y).1.forge = [] ∧
      (s.useSkullToRemove fresh x y).1.forge = []) := by
  have hdl : s.forge.dropLast.length ≤ s.forgeCapacity := by
    rw [List.length_dropLast]; omega
  refine ⟨?_, ?_, ?_, ?_, ?_, ?_, ?_⟩
  · obtain ⟨hc, hf⟩ := placeRune_fst_forge s fresh x y
    rw [hc]
    rcases hf with h | h | h <;> rw [h]
    · exact hcap
    · exact Nat.zero_le _
    · exact hdl
  · unfold GameState.discardToForge
    cases s.currentRune with
    | none => exact hcap
    | some cur =>
      dsimp only
      split
      · exact hcap
      · next hlt =>
        show (s.forge ++ [cur]).length ≤ s.forgeCapacity
        rw [List.length_append]
        simp only [List.length_cons, List.length_nil]
        omega
  · obtain ⟨hc, hf⟩ := useSkullToRemove_fst_forge s fresh x y
    rw [hc]
    rcases hf with h | h <;> rw [h]
    · exact hcap
    · exact hdl
  · show (if s.forge.length > 0 then s.forge.dropLast else s.forge).length ≤ s.forgeCapacity
    rw [dropLast_cond]
    exact hdl
  · show ([] : List Rune).length ≤ s.forgeCapacity
    exact Nat.zero_le _
  · intro heq
    unfold GameState.discardToForge
    cases s.currentRune with
    | none => rfl
    | some cur =>
      dsimp only
      rw [if_pos (by omega)]
  · intro hnil
    constructor
    · obtain ⟨_, hf⟩ := placeRune_fst_forge s fresh x y
      rcases hf with h | h | h <;> simp [h, hnil]
    · obtain ⟨_, hf⟩ := useSkullToRemove_fst_forge s fresh x y
      rcases hf with h | h <;> simp [h, hnil]

/-- C6 witness: the invariant statement evaluated on `c1State` (empty forge,
capacity 3). -/
theorem C6_witness :
    (c1State.placeRune crimsonAries 0 0).1.forge.length
      ≤ (c1State.placeRune crimsonAries 0 0).1.forgeCapacity ∧
    (c1State.discardToForge crimsonAries).1.forge.length
      ≤ (c1State.discardToForge crimsonAries).1.forgeCapacity ∧
    (c1State.useSkullToRemove crimsonAries 0 0).1.forge.length
      ≤ (c1State.useSkullToRemove crimsonAries 0 0).1.forgeCapacity ∧
    (c1State.startNewRound crimsonAries).forge.length
      ≤ (c1State.startNewRound crimsonAries).forgeCapacity ∧
    (c1State.init crimsonAries false).forge.length
      ≤ (c1State.init crimsonAries false).forgeCapacity ∧
    (c1State.forge.length = c1State.forgeCapacity →
      c1State.discardToForge crimsonAries = (c1State, false)) ∧
    (c1State.forge = [] → (c1State.placeRune crimsonAries 0 0).1.forge = [] ∧
      (c1State.useSkullToRemove crimsonAries 0 0).1.forge = []) :=
  C6_forge_invariant c1State crimsonAries 0 0 false (by decide)

/-! ### C10 -/

/-- C10: a successful skull use changes only the target cell's rune (removed,
its state kept), the current rune (the fresh draw) and the forge (one slot
popped from the end — in particular not emptied, so no line-clear resolution
ran); score, streaks, board number and every other cell are untouched. -/
theorem C10_useSkull_frame (s : GameState) (fresh : Rune) (x y : Int)
    (h : (s.useSkullToRemove fresh x y).2 = true) :
    (s.useSkullToRemove fresh x y).1.score = s.score ∧
    (s.useSkullToRemove fresh x y).1.placementStreak = s.placementStreak ∧
    (s.useSkullToRemove fresh x y).1.maxPlacementStreak = s.maxPlacementStreak ∧
    (s.useSkullToRemove fresh x y).1.board = s.board ∧
    (s.useSkullToRemove fresh x y).1.currentRune = some fresh ∧
    (s.useSkullToRemove fresh x y).1.forge = s.forge.dropLast ∧
    cellAt (s.useSkullToRemove fresh x y).1.grid x.toNat y.toNat
      = (cellAt s.grid x.toNat y.toNat).map (fun c => { c with rune := none }) ∧
    (∀ i j : Nat, ¬(i = x.toNat ∧ j = y.toNat) →
      cellAt (s.useSkullToRemove fresh x y).1.grid i j = cellAt s.grid i j) := by
  rw [useSkullToRemove_success_eq s fresh x y h]
  refine ⟨rfl, rfl, rfl, rfl, rfl, rfl, ?_, ?_⟩
  · rw [cellAt_setRuneAt, if_pos ⟨rfl, rfl⟩]
  · intro i j hij
    rw [cellAt_setRuneAt, if_neg hij]

/-- C10 witness: a concrete successful skull use on `c2State` with a skull
current rune, removing the rune at `(0, 0)`. -/
theorem C10_witness :
    ({ c2State with currentRune := some SKULL_RUNE }.useSkullToRemove crimsonAries 0 0).1.score
      = { c2State with currentRune := some SKULL_RUNE }.score ∧
    ({ c2State with currentRune := some SKULL_RUNE }.useSkullToRemove crimsonAries 0 0).1.placementStreak
      = { c2State with currentRune := some SKULL_RUNE }.placementStreak ∧
    ({ c2State with currentRune := some SKULL_RUNE }.useSkullToRemove crimsonAries 0 0).1.maxPlacementStreak
      = { c2State with currentRune := some SKULL_RUNE }.maxPlacementStreak ∧
    ({ c2State with currentRune := some SKULL_RUNE }.useSkullToRemove crimsonAries 0 0).1.board
      = { c2State with currentRune := some SKULL_RUNE }.board ∧
    ({ c2State with currentRune := some SKULL_RUNE }.useSkullToRemove crimsonAries 0 0).1.currentRune
      = some crimsonAries ∧
    ({ c2State with currentRune := some SKULL_RUNE }.useSkullToRemove crimsonAries 0 0).1.forge
      = { c2State with currentRune := some SKULL_RUNE }.forge.dropLast ∧
    cellAt ({ c2State with currentRune := some SKULL_RUNE }.useSkullToRemove crimsonAries 0 0).1.grid
        (0 : Int).toNat (0 : Int).toNat
      = (cellAt { c2State with currentRune := some SKULL_RUNE }.grid (0 : Int).toNat (0 : Int).toNat).map
          (fun c => { c with rune := none }) ∧
    (∀ i j : Nat, ¬(i = (0 : Int).toNat ∧ j = (0 : Int).toNat) →
      cellAt ({ c2State with currentRune := some SKULL_RUNE }.useSkullToRemove crimsonAries 0 0).1.grid i j
        = cellAt { c2State with currentRune := some SKULL_RUNE }.grid i j) :=
  C10_useSkull_frame { c2State with currentRune := some SKULL_RUNE } crimsonAries 0 0 (by decide)

end Glitters
